import Mathlib

/-!
Verification development for `bin/pFUnitParser.py` of pFUnit 3.3.3
(the `.pf` → Fortran directive preprocessor).

The Python program is embedded shallowly:

* lines are `List Char` (`Str`); the parser state (`PState`) mirrors the
  fields of the Python `Parser` object; dictionaries with optional keys
  become structures with `Option` fields;
* each Python regular expression used by a recognizer's `match` (all are
  anchored `re.match` patterns over a single line, with `re.IGNORECASE`)
  is hand-compiled to a deterministic Lean function.  Greedy `.*` before
  a closing literal such as `\)` followed by `\s*$` resolves to "the last
  occurrence with only whitespace after it", which is what the functions
  below compute; character-class stars (`\w*`, `\s*`, `[0-9,\s]+`) have
  no backtracking ambiguity because the following literal is outside the
  class;
* fallible Python code (uncaught `MyError`, `AttributeError` on
  `None.groups()`, `TypeError` on `str + None` / `len(None)`,
  `ValueError` from `int`, `KeyError`/`IndexError` on dict/list access)
  becomes `Except PErr`.

Python 2 semantics are assumed where they differ from Python 3 (the file
declares itself "For python 2.7"): in particular `map(int, ...)` is
eager, so a bad `npes` entry raises at parse time.
-/

/-- A Python string, as a list of characters. -/
abbrev Str := List Char

/-- Characters of a Lean string literal. -/
def toL (s : String) : Str := s.data

/-- Python `\s` (ASCII whitespace as used by `re` on these inputs). -/
def pySpace (c : Char) : Bool :=
  c = ' ' || c = '\t' || c = '\n' || c = '\r' || c = '\x0b' || c = '\x0c'

/-- Python `\w` restricted to ASCII: letters, digits, underscore. -/
def pyWord (c : Char) : Bool := c.isAlpha || c.isDigit || c = '_'

/-- Case-insensitive character comparison (`re.IGNORECASE`). -/
def lowEq (a b : Char) : Bool := a.toLower = b.toLower

/-- Skip a `\s*` prefix. -/
def dropWS (s : Str) : Str := s.dropWhile pySpace

/-- Strip trailing whitespace (used for `...\s*$` tails). -/
def dropTrailWS (s : Str) : Str := (dropWS s.reverse).reverse

/-- Python `str.strip()`. -/
def trimWS (s : Str) : Str := dropTrailWS (dropWS s)

/-- Greedy `\w*`. -/
def takeWord (s : Str) : Str := s.takeWhile pyWord

/-- Rest after a greedy `\w*`. -/
def dropWord (s : Str) : Str := s.dropWhile pyWord

/-- True when the string has no newline other than possibly a final one
(`.` in a pattern cannot match `\n`; input lines carry at most a
trailing newline). -/
def noMidNL (s : Str) : Bool := !(s.dropLast.contains '\n')

/-- Case-insensitively strip the literal `pat` from the front of the
input, returning the rest on success. -/
def stripCI : Str → Str → Option Str
  | [], s => some s
  | _ :: _, [] => none
  | p :: ps, c :: cs => if lowEq p c then stripCI ps cs else none

/-- `needle` is a prefix of `hay` (exact). -/
def leadsWith : Str → Str → Bool
  | [], _ => true
  | _ :: _, [] => false
  | n :: ns, h :: hs => n = h && leadsWith ns hs

/-- `needle` occurs contiguously inside `hay` (exact). -/
def containsSub (n : Str) : Str → Bool
  | [] => leadsWith n []
  | c :: t => leadsWith n (c :: t) || containsSub n t

/-- Lower-case every character. -/
def lowerL (s : Str) : Str := s.map Char.toLower

/-- `needle` occurs inside `hay`, case-insensitively (this is how the
source checks `re.match('.*message=.*', x, re.IGNORECASE)`). -/
def containsCI (n h : Str) : Bool := containsSub (lowerL n) (lowerL h)

/-- Decimal digits of a natural number (Python `str(n)`). -/
def natToStr (n : Nat) : Str := (Nat.repr n).data

/-- `Parser.commentLine`: `re.sub('@', '!@', line)` — every `@` becomes
`!@`. -/
def commentLine : Str → Str
  | [] => []
  | c :: r => if c = '@' then '!' :: '@' :: commentLine r else c :: commentLine r

/-- `os.path.basename`: everything after the last `/`. -/
def basenameStr (s : Str) : Str := (s.reverse.takeWhile (fun c => c ≠ '/')).reverse

/-- Drop the extension of a (slash-free) name per `os.path.splitext`:
split at the last dot unless every character before it is a dot. -/
def splitExtBase (b : Str) : Str :=
  let rev := b.reverse
  let afterDot := rev.takeWhile (fun c => c ≠ '.')
  if afterDot.length = rev.length then b
  else
    let stem := (rev.drop (afterDot.length + 1)).reverse
    if stem.all (fun c => c = '.') then b else stem

/-- `getBaseName` from `Parser.__init__`: basename without extension. -/
def getBaseName (fn : Str) : Str := splitExtBase (basenameStr fn)

/-! ### Hand-compiled regular expressions -/

/-- The tail `\((.*\w.*)\)\s*$` (preceded by `\s*`), as used by the
assertion matchers: the argument text sits between the first `(` and the
last `)` that is followed only by whitespace, and must contain a word
character and no interior newline. -/
def parenArgs (r : Str) : Option Str :=
  match dropWS r with
  | '(' :: t =>
    match dropWS t.reverse with
    | ')' :: irev =>
      let i := irev.reverse
      if i.any pyWord && !(i.contains '\n') then some i else none
    | _ => none
  | _ => none

/-- The tail `\((.*)\)\s*$` (preceded by `\s*`), as used by the option
matchers: like `parenArgs` but the interior may be empty. -/
def parenAny (r : Str) : Option Str :=
  match dropWS r with
  | '(' :: t =>
    match dropWS t.reverse with
    | ')' :: irev =>
      let i := irev.reverse
      if i.contains '\n' then none else some i
    | _ => none
  | _ => none

/-- `AtTest.match` / `AtMpiTest.match`:
`\s*{kw}(\s*(\(.*\))?\s*$)` — the keyword, then optionally a
parenthesized option list, then end of line. -/
def matchAtTest (kw : Str) (line : Str) : Bool :=
  match stripCI kw (dropWS line) with
  | none => false
  | some r =>
    match dropWS r with
    | [] => true
    | '(' :: t =>
      match dropWS t.reverse with
      | ')' :: irev => !(irev.reverse.contains '\n')
      | _ => false
    | _ => false

/-- `AtTestCase.match`: `\s*@testcase\s*(|\(.*\))\s*$` — same acceptance
condition as `AtTest.match` with keyword `@testcase`. -/
def matchAtTestCase (line : Str) : Bool := matchAtTest (toL "@testcase") line

/-- `AtSuite.match`:
`\s*@suite\s*\(\s*name\s*=\s*('\w+'|"\w+")\s*\)\s*$`; returns the suite
name without its quotes (the action takes `m.groups()[0][1:-1]`). -/
def matchAtSuite (line : Str) : Option Str :=
  match stripCI (toL "@suite") (dropWS line) with
  | none => none
  | some r =>
    match dropWS r with
    | '(' :: t =>
      match stripCI (toL "name") (dropWS t) with
      | none => none
      | some u =>
        match dropWS u with
        | '=' :: v =>
          match dropWS v with
          | q :: w =>
            if q = '\'' || q = '"' then
              let nm := takeWord w
              if nm = [] then none
              else
                match dropWord w with
                | c :: x =>
                  if c = q then
                    match dropWS x with
                    | ')' :: y => if dropWS y = [] then some nm else none
                    | _ => none
                  else none
                | [] => none
            else none
          | [] => none
        | _ => none
    | _ => none

/-- `AtBegin.match`: `\s*module\s+(\w*)\s*$`; returns the module name. -/
def matchAtBegin (line : Str) : Option Str :=
  match stripCI (toL "module") (dropWS line) with
  | none => none
  | some r =>
    match r with
    | c :: t =>
      if pySpace c then
        let r1 := dropWS t
        let nm := takeWord r1
        if dropWS (dropWord r1) = [] then some nm else none
      else none
    | [] => none

/-- The `assertVariants` alternation, in source order. -/
def assertVariants : List Str :=
  [toL "Fail", toL "Equal", toL "True", toL "False", toL "LessThan",
   toL "LessThanOrEqual", toL "GreaterThan", toL "GreaterThanOrEqual",
   toL "IsMemberOf", toL "Contains", toL "Any", toL "All", toL "NotAll",
   toL "None", toL "IsPermutationOf", toL "ExceptionRaised",
   toL "SameShape", toL "IsNaN", toL "IsFinite"]

/-- Try the variant alternation at `r` in order; a variant is taken only
if the rest of the pattern (`\s*\((.*\w.*)\)\s*$`) also matches, exactly
as the regex engine backtracks into the next alternative otherwise.
Returns the variant as spelled in the input, and the argument text. -/
def tryVariants : List Str → Str → Option (Str × Str)
  | [], _ => none
  | v :: vs, r =>
    match stripCI v r with
    | some rest =>
      match parenArgs rest with
      | some args => some (r.take v.length, args)
      | none => tryVariants vs r
    | none => tryVariants vs r

/-- `AtAssert.match` / `AtMpiAssert.match`:
`\s*{kw}({assertVariants})\s*\((.*\w.*)\)\s*$`. -/
def matchAssertVariant (kw : Str) (line : Str) : Option (Str × Str) :=
  match stripCI kw (dropWS line) with
  | none => none
  | some r => tryVariants assertVariants r

/-- `AtAssert.match` (keyword `@assert`). -/
def matchAtAssert (line : Str) : Option (Str × Str) :=
  matchAssertVariant (toL "@assert") line

/-- `AtMpiAssert.match` (keyword `@mpiassert`). -/
def matchAtMpiAssert (line : Str) : Option (Str × Str) :=
  matchAssertVariant (toL "@mpiassert") line

/-- `[^,]*\w.*` — the interior contains a word character before its
first comma. -/
def wordBeforeComma (s : Str) : Bool := (s.takeWhile (fun c => c ≠ ',')).any pyWord

/-- The two-argument interior `\s*([^,]*\w.*),\s*([^,]*\w.*)`: some
comma splits the interior so that both sides have a word character
before their first comma. -/
def innerTwo (i : Str) : Bool :=
  (List.range i.length).any fun k =>
    decide (i.get? k = some ',') && wordBeforeComma (i.take k)
      && wordBeforeComma (i.drop (k + 1))

/-- The three-argument interior
`\s*([^,]*\w.*),\s*([^,]*\w.*),(.*\w*.*)`: two commas, each of the first
two pieces with a word character before its first comma (the third
piece, `.*\w*.*`, matches anything newline-free, even empty text). -/
def innerThree (i : Str) : Bool :=
  (List.range i.length).any fun k =>
    decide (i.get? k = some ',') && wordBeforeComma (i.take k)
      && (let b := i.drop (k + 1)
          (List.range b.length).any fun j =>
            decide (b.get? j = some ',') && wordBeforeComma (b.take j))

/-- `AtAssertAssociated.match`: the three patterns tried in source order
share the outer shape `\s*@assertassociated\s*\((...)\)\s*$`; the first
accepts any word-containing interior, the second a three-argument
interior, the third a two-argument interior. -/
def matchAtAssertAssociated (line : Str) : Bool :=
  match stripCI (toL "@assertassociated") (dropWS line) with
  | none => false
  | some r =>
    (parenArgs r).isSome ||
      (match parenAny r with
       | some i => innerThree i || innerTwo i
       | none => false)

/-- The `(not|un)associated` part of `AtAssertNotAssociated.match`:
returns the `not`/`un` spelling from the input plus the rest. (The two
alternatives cannot overlap, so no backtracking between them.) -/
def matchNotUn (r : Str) : Option (Str × Str) :=
  match stripCI (toL "not") r with
  | some t =>
    match stripCI (toL "associated") t with
    | some u => some (r.take 3, u)
    | none => none
  | none =>
    match stripCI (toL "un") r with
    | some t =>
      match stripCI (toL "associated") t with
      | some u => some (r.take 2, u)
      | none => none
    | none => none

/-- `AtAssertNotAssociated.match`:
`\s*@assert(not|un)associated\s*\((...)\)\s*$`, three interior patterns
as in `matchAtAssertAssociated`; returns `m.groups()[0]` (the `not`/`un`
spelling, which the matcher stores into `self.name`). -/
def matchAtAssertNotAssociated (line : Str) : Option Str :=
  match stripCI (toL "@assert") (dropWS line) with
  | none => none
  | some r =>
    match matchNotUn r with
    | none => none
    | some (sp, u) =>
      if (parenArgs u).isSome ||
          (match parenAny u with
           | some i => innerThree i || innerTwo i
           | none => false)
      then some sp else none

/-- `AtAssertEqualUserDefined.match` / `AtAssertEquivalent.match`: the
keyword followed by a parenthesized interior with at least two
arguments (three-argument pattern tried first, then two-argument). -/
def matchTwoPlusArgs (kw : Str) (line : Str) : Bool :=
  match stripCI kw (dropWS line) with
  | none => false
  | some r =>
    match parenAny r with
    | some i => innerThree i || innerTwo i
    | none => false

/-- `AtBefore.match`: `\s*@before\s*$`. -/
def matchAtBefore (line : Str) : Bool :=
  match stripCI (toL "@before") (dropWS line) with
  | some r => dropWS r = []
  | none => false

/-- `AtAfter.match`: `\s*@after\s*$`. -/
def matchAtAfter (line : Str) : Bool :=
  match stripCI (toL "@after") (dropWS line) with
  | some r => dropWS r = []
  | none => false

/-- `AtTestParameter.match`: `\s*@testParameter\s*(|.*)$` — accepts the
keyword followed by anything without an interior newline. -/
def matchAtTestParameter (line : Str) : Bool :=
  match stripCI (toL "@testparameter") (dropWS line) with
  | some r => noMidNL r
  | none => false

/-- `Parser.isComment`: `\s*(!.*|)$` — blank, or `!`-comment. -/
def isComment (line : Str) : Bool :=
  match dropWS line with
  | [] => true
  | c :: t => c = '!' && noMidNL t

/-! ### Option-list searches (`re.search` / leading-`.*` `re.match`) -/

/-- `re.search` semantics: try `f` at each position, leftmost first
(including the empty suffix). -/
def searchLeft (f : Str → Option α) : Str → Option α
  | [] => f []
  | c :: t =>
    match f (c :: t) with
    | some x => some x
    | none => searchLeft f t

/-- `re.match(".*key...")` semantics: the greedy leading `.*` makes the
rightmost position whose suffix matches win. -/
def searchRight (f : Str → Option α) : Str → Option α
  | [] => f []
  | c :: t =>
    match searchRight f t with
    | some x => some x
    | none => f (c :: t)

/-- At one position: `npes\s*=\s*\[([0-9,\s]+)\]` (the class run is
forced since `]` is outside the class). -/
def npesAt (s : Str) : Option Str :=
  match stripCI (toL "npes") s with
  | none => none
  | some r =>
    match dropWS r with
    | '=' :: t =>
      match dropWS t with
      | '[' :: u =>
        let run := u.takeWhile (fun c => c.isDigit || c = ',' || pySpace c)
        if run = [] then none
        else
          match u.drop run.length with
          | ']' :: _ => some run
          | _ => none
      | _ => none
    | _ => none

/-- At one position: `{key}\s*=\s*(\w+)` — a nonempty word value. -/
def keyWordAt (key : Str) (s : Str) : Option Str :=
  match stripCI key s with
  | none => none
  | some r =>
    match dropWS r with
    | '=' :: t =>
      let w := takeWord (dropWS t)
      if w = [] then none else some w
    | _ => none

/-- At one position: `{key}\s*=\s*(\w*)` — a possibly empty word value
(used for `constructor=`). -/
def keyWordAtOpt (key : Str) (s : Str) : Option Str :=
  match stripCI key s with
  | none => none
  | some r =>
    match dropWS r with
    | '=' :: t => some (takeWord (dropWS t))
    | _ => none

/-- At one position: `testParameters\s*=\s*[{](.*)[}]` — capture up to
the last `\x7d`, newline-free. -/
def testParamsAt (s : Str) : Option Str :=
  match stripCI (toL "testparameters") s with
  | none => none
  | some r =>
    match dropWS r with
    | '=' :: t =>
      match dropWS t with
      | c :: u =>
        if c = '\x7b' then
          match u.reverse.dropWhile (fun d => d ≠ '\x7d') with
          | '\x7d' :: innerRev =>
            let i := innerRev.reverse
            if i.contains '\n' then none else some i
          | _ => none
        else none
      | [] => none
    | _ => none

/-- At one position: `cases\s*=\s*(\[[0-9,\s]+\])` — the capture keeps
the brackets. -/
def casesAt (s : Str) : Option Str :=
  match stripCI (toL "cases") s with
  | none => none
  | some r =>
    match dropWS r with
    | '=' :: t =>
      match dropWS t with
      | '[' :: u =>
        let run := u.takeWhile (fun c => c.isDigit || c = ',' || pySpace c)
        if run = [] then none
        else
          match u.drop run.length with
          | ']' :: _ => some ('[' :: (run ++ [']']))
          | _ => none
      | _ => none
    | _ => none

/-! ### Errors and numeric parsing -/

/-- The uncaught Python exceptions the program can die with. -/
inductive PErr
  /-- `MyError('Improper format in declaration of test procedure.')`. -/
  | myErr
  /-- `AttributeError` from `None.groups()` in `getTypeName`. -/
  | attrErr
  /-- `TypeError` from concatenating `None` or `len(None)`. -/
  | typeErr
  /-- `ValueError` from `int(...)`. -/
  | valueErr
  /-- `IndexError` from an out-of-range list subscript. -/
  | indexErr
  /-- `KeyError` from a missing dictionary key. -/
  | keyErr
deriving DecidableEq, Repr

deriving instance DecidableEq for Except

/-- Python `int(s)` on the digit/whitespace pieces produced by the
`npes` capture: strip, then require a nonempty digit string. -/
def pyInt (s : Str) : Except PErr Nat :=
  let t := trimWS s
  if t ≠ [] && t.all Char.isDigit then
    .ok (t.foldl (fun a c => a * 10 + (c.toNat - 48)) 0)
  else .error .valueErr

/-- `map(int, npesString.split(','))` (eager, Python 2). -/
def parseNpes (s : Str) : Except PErr (List Nat) :=
  (s.splitOn ',').mapM pyInt

/-- Dictionary read that raises `KeyError` when the key is absent. -/
def dg (o : Option Str) : Except PErr Str :=
  match o with
  | some v => .ok v
  | none => .error .keyErr

/-! ### Lookahead extractors -/

/-- The `\s*(!.*)*$` tail of `getSubroutineName`'s pattern. -/
def subrTail (r : Str) : Bool :=
  match dropWS r with
  | [] => true
  | c :: t => c = '!' && noMidNL t

/-- `getSubroutineName`:
`\s*subroutine\s+(\w*)\s*(\([\w\s,]*\))?\s*(!.*)*$`; any failure raises
`MyError` (the source wraps the match in `try`/`except`). -/
def getSubroutineName (line : Str) : Except PErr Str :=
  match stripCI (toL "subroutine") (dropWS line) with
  | none => .error .myErr
  | some r =>
    match r with
    | c :: t =>
      if pySpace c then
        let r1 := dropWS t
        let nm := takeWord r1
        let r2 := dropWS (dropWord r1)
        let ok :=
          match r2 with
          | '(' :: t2 =>
            let run := t2.takeWhile (fun d => pyWord d || pySpace d || d = ',')
            (match t2.drop run.length with
             | ')' :: u => subrTail u
             | _ => false)
          | _ => subrTail r2
        if ok then .ok nm else .error .myErr
      else .error .myErr
    | [] => .error .myErr

/-- State machine for `(,\s*\w+\s*)*\)\s*$` after the first dummy
argument: state 0 after a complete word, state 1 after a comma, state 2
inside a word. -/
def argsTail : Nat → Str → Bool
  | _, [] => false
  | 0, c :: t =>
    if pySpace c then argsTail 0 t
    else if c = ',' then argsTail 1 t
    else if c = ')' then dropWS t = []
    else false
  | 1, c :: t =>
    if pySpace c then argsTail 1 t
    else if pyWord c then argsTail 2 t
    else false
  | 2, c :: t =>
    if pyWord c then argsTail 2 t
    else if pySpace c then argsTail 0 t
    else if c = ',' then argsTail 1 t
    else if c = ')' then dropWS t = []
    else false
  | _ + 3, _ :: _ => false

/-- `getSelfObjectName`:
`\s*subroutine\s+\w*\s*\(\s*(\w+)\s*(,\s*\w+\s*)*\)\s*$`; returns the
first dummy argument, or `None` when the pattern does not match. -/
def getSelfObjectName (line : Str) : Option Str :=
  match stripCI (toL "subroutine") (dropWS line) with
  | none => none
  | some r =>
    match r with
    | c :: t =>
      if pySpace c then
        let r1 := dropWS t
        match dropWS (dropWord r1) with
        | '(' :: t2 =>
          let a := takeWord (dropWS t2)
          if a = [] then none
          else if argsTail 0 (dropWord (dropWS t2)) then some a else none
        | _ => none
      else none
    | [] => none

/-- The `\s*(\w*)\s*$` tail of `getTypeName`'s pattern, with its
capture. -/
def typeTail (t : Str) : Option Str :=
  let w := takeWord (dropWS t)
  if dropWS (dropWord (dropWS t)) = [] then some w else none

/-- All decompositions `s = a ++ "::" ++ b`, leftmost first. -/
def colonSplitsL : Str → List (Str × Str)
  | [] => []
  | c :: t =>
    (if c = ':' then
       match t with
       | ':' :: u => [(([] : Str), u)]
       | _ => []
     else []) ++ (colonSplitsL t).map (fun p => (c :: p.1, p.2))

/-- `getTypeName`: `\s*type(.*::\s*|\s+)(\w*)\s*$` returning
`m.groups()[1]`; a failed match means `None.groups()`, an uncaught
`AttributeError`.  The greedy `.*::` alternative takes the rightmost
`::` whose tail fits (and whose head is newline-free); otherwise the
`\s+` alternative is tried. -/
def getTypeName (line : Str) : Except PErr Str :=
  match stripCI (toL "type") (dropWS line) with
  | none => .error .attrErr
  | some r =>
    let cands := (colonSplitsL r).reverse.filter (fun p => !(p.1.contains '\n'))
    match cands.find? (fun p => (typeTail p.2).isSome) with
    | some p => .ok ((typeTail p.2).getD [])
    | none =>
      match r with
      | c :: _ =>
        if pySpace c then
          match typeTail r with
          | some w => .ok w
          | none => .error .attrErr
        else .error .attrErr
      | [] => .error .attrErr

/-! ### The external argument splitter -/

/-- Split on top-level commas, tracking bracket depth and quoted
literals (helper for `parseDirectiveArguments`). -/
def splitTop : Str → Nat → Option Char → Str → List Str
  | [], _, _, acc => [acc.reverse]
  | c :: rest, depth, some q, acc =>
    if c = q then splitTop rest depth none (c :: acc)
    else splitTop rest depth (some q) (c :: acc)
  | c :: rest, depth, none, acc =>
    if c = '\'' || c = '"' then splitTop rest depth (some c) (c :: acc)
    else if c = '(' || c = '[' || c = '\x7b' then splitTop rest (depth + 1) none (c :: acc)
    else if c = ')' || c = ']' || c = '\x7d' then splitTop rest (depth - 1) none (c :: acc)
    else if c = ',' && depth = 0 then acc.reverse :: splitTop rest 0 none []
    else splitTop rest depth none (c :: acc)

/-- Modelled from the spec: the external argument-list splitter
(`parseDirectiveArguments` imported from the module
`parseDirectiveArgs`, which is not part of this repository's core
source).  Per the spec it is a pure function that, "given a raw
comma-separated argument string, returns an ordered list of trimmed
argument substrings while respecting nested brackets/parentheses and
quoted literals"; an empty (all-whitespace) input yields no
arguments. -/
def parseDirectiveArguments (s : Str) : List Str :=
  if trimWS s = [] then [] else (splitTop s 0 none []).map trimWS

/-- `','.join`. -/
def joinComma (l : List Str) : Str := List.intercalate [','] l

/-- `parseArgsFirstRest`: match `\s*{dn}\s*\((.*\w.*)\)\s*$` (or take
the whole string when `dn` is empty), split the argument text, and
return `[first]` or `[first, rest-joined-with-commas]`. -/
def parseArgsFirstRest (dn : Str) (line : Str) : Option (List Str) :=
  let argStr? : Option Str :=
    if dn ≠ [] then
      match stripCI dn (dropWS line) with
      | some r => parenArgs r
      | none => none
    else some line
  match argStr? with
  | none => none
  | some argStr =>
    match parseDirectiveArguments argStr with
    | [] => none
    | [a] => some [a]
    | a :: rest => some [a, joinComma rest]

/-- `parseArgsFirstSecondRest`: re-split the "rest" piece.  When the
recursive call yields `None`, Python evaluates `[args1[0]] + None`
— an uncaught `TypeError`. -/
def parseArgsFirstSecondRest (dn : Str) (line : Str) : Except PErr (Option (List Str)) :=
  match parseArgsFirstRest dn line with
  | none => .ok none
  | some [a] => .ok (some [a])
  | some [a, b] =>
    match parseArgsFirstRest [] b with
    | some args2 => .ok (some (a :: args2))
    | none => .error .typeErr
  | some _ => .ok none

/-! ### Parser state -/

/-- One entry of `Parser.userTestMethods` (a Python dict); `Option`
fields model optional keys. -/
structure TestMethod where
  name : Str := []
  selfObjectName : Option Str := none
  npRequests : Option (List Nat) := none
  ifdef : Option Str := none
  ifndef : Option Str := none
  type : Option Str := none
  testParameters : Option Str := none
  cases : Option Str := none
  setUp : Option Str := none
  tearDown : Option Str := none
deriving DecidableEq, Repr

/-- `Parser.userTestCase` (a Python dict).  The first five fields are
set unconditionally in `Parser.__init__`; the rest are optional keys. -/
structure TestCase where
  setUpMethod : Str := []
  tearDownMethod : Str := []
  defaultTestParameterNpes : List Nat := []
  defaultTestParametersExpr : Str := []
  defaultTestParameterCases : List Nat := []
  constructor : Option Str := none
  npRequests : Option (List Nat) := none
  cases : Option Str := none
  testParameters : Option Str := none
  type : Option Str := none
  setUp : Option Str := none
  tearDown : Option Str := none
  testParameterType : Option Str := none
  testParameterConstructor : Option Str := none
deriving DecidableEq, Repr

/-- The `Parser` object's mutable state.  `currentSelfObjectName` is
`none` while the Python attribute does not exist (`hasattr` false),
`some none` when it was assigned Python `None`, and `some (some n)`
when it holds a name.  `input` is the not-yet-read tail of the input
file; `output` is everything written so far. -/
structure PState where
  fileName : Str
  useMarkers : Bool
  suiteName : Str
  defaultSuiteName : Str
  userModuleName : Str
  wrapModuleName : Str
  currentLineNumber : Nat
  userTestCase : TestCase
  userTestMethods : List TestMethod
  currentSelfObjectName : Option (Option Str)
  input : List Str
  output : Str
deriving DecidableEq, Repr

/-- `Parser.__init__` for input file `inputFileName`, marker flag, and
file contents `lines`. -/
def initState (inputFileName : Str) (useMarkers : Bool) (lines : List Str) : PState :=
  { fileName := inputFileName
    useMarkers := useMarkers
    suiteName := []
    defaultSuiteName := getBaseName inputFileName ++ toL "_suite"
    userModuleName := []
    wrapModuleName := toL "Wrap" ++ getBaseName inputFileName
    currentLineNumber := 0
    userTestCase := {}
    userTestMethods := []
    currentSelfObjectName := none
    input := lines
    output := [] }

/-- `cpp_set_line` / `compiler_set_line`, selected by the marker flag
exactly as `Parser.__init__` binds `self.set_line`. -/
def setLineText (useMarkers : Bool) (l : Nat) (fileName : Str) : Str :=
  if useMarkers then
    toL "#" ++ natToStr l ++
      (if fileName ≠ [] then toL " \"" ++ fileName ++ toL "\"" else []) ++ toL "\n"
  else
    toL "#line " ++ natToStr l ++ toL " \"" ++ fileName ++ toL "\"\n"

/-- `appendSourceLocation`: the three writes, concatenated.  Note it
uses `basename(fileName)`, unlike `set_line` which receives
`self.fileName` unchanged. -/
def srcLocText (fileName : Str) (l : Nat) : Str :=
  toL " & location=SourceLocation( &\n" ++
  toL " & '" ++ basenameStr fileName ++ toL "', &\n" ++
  toL " & " ++ natToStr l ++ toL ")"

/-- `Parser.nextLine` on raw data: consume lines, forwarding comment
lines to the output, until a non-comment line or end of input. -/
def nextLineAux : List Str → Nat → Str → ((List Str × Nat × Str) × Option Str)
  | [], n, out => (([], n + 1, out), none)
  | l :: rest, n, out =>
    if isComment l then nextLineAux rest (n + 1) (out ++ l)
    else ((rest, n + 1, out), some l)

/-- `Parser.nextLine` as a state step; `none` models the empty-string
end-of-stream sentinel. -/
def nextLineS (s : PState) : PState × Option Str :=
  let r := nextLineAux s.input s.currentLineNumber s.output
  ({ s with input := r.1.1, currentLineNumber := r.1.2.1, output := r.1.2.2 }, r.2)

/-! ### Directive actions -/

/-- `AtSuite.action`. -/
def atSuiteAction (s : PState) (nm : Str) : PState :=
  { s with suiteName := nm, wrapModuleName := toL "Wrap" ++ nm }

/-- `AtBegin.action`. -/
def atBeginAction (s : PState) (nm : Str) (line : Str) : PState :=
  let s1 := { s with userModuleName := nm, wrapModuleName := toL "Wrap" ++ nm }
  let s2 := if s1.suiteName = [] then { s1 with suiteName := nm ++ toL "_suite" } else s1
  { s2 with output := s2.output ++ line }

/-- `AtAssert.action`: line marker, the rewritten call, the source
location, the guard, and the restoring line marker. -/
def atAssertAction (s : PState) (variant args : Str) : PState :=
  let L := s.currentLineNumber
  { s with output := (s.output ++
      setLineText s.useMarkers L s.fileName ++
      toL "  call assert" ++ variant ++ toL "(" ++ args ++ toL ", &\n" ++
      srcLocText s.fileName L ++ toL " )\n" ++
      toL "  if (anyExceptions()) return\n" ++
      setLineText s.useMarkers (L + 1) s.fileName) }

/-- `AtMpiAssert.action`.  The guard is emitted only when the
`currentSelfObjectName` attribute exists; when it exists but holds
Python `None`, the string concatenation raises `TypeError`. -/
def atMpiAssertAction (s : PState) (variant args : Str) : Except PErr PState :=
  let L := s.currentLineNumber
  let head := setLineText s.useMarkers L s.fileName ++
    toL "  call assert" ++ variant ++ toL "(" ++ args ++ toL ", &\n" ++
    srcLocText s.fileName L ++ toL " )\n"
  match s.currentSelfObjectName with
  | none =>
    .ok { s with output := s.output ++ head ++ setLineText s.useMarkers (L + 1) s.fileName }
  | some none => .error .typeErr
  | some (some n) =>
    .ok { s with output := (s.output ++ head ++
      toL "  if (anyExceptions(" ++ n ++ toL "%context)) return\n" ++
      setLineText s.useMarkers (L + 1) s.fileName) }

/-- The branch structure shared by `AtAssertAssociated.action`
(`neg = false`, `assertTrue`) and `AtAssertNotAssociated.action`
(`neg = true`, `assertFalse`). -/
def assocCallText (neg : Bool) (args : List Str) : Except PErr Str :=
  let callee := if neg then toL "assertFalse" else toL "assertTrue"
  match args with
  | [] => .error .indexErr
  | [a0] => .ok (toL "  call " ++ callee ++ toL "(associated(" ++ a0 ++ toL "), &\n")
  | a0 :: a1 :: rest =>
    if containsCI (toL "message=") a1 then
      .ok (toL "  call " ++ callee ++ toL "(associated(" ++ a0 ++ toL "), " ++ a1 ++ toL ", &\n")
    else
      match rest with
      | a2 :: _ =>
        .ok (toL "  call " ++ callee ++ toL "(associated(" ++ a0 ++ toL "," ++ a1 ++
             toL "), " ++ a2 ++ toL ", &\n")
      | [] =>
        .ok (toL "  call " ++ callee ++ toL "(associated(" ++ a0 ++ toL "," ++ a1 ++ toL "), &\n")

/-- The common tail of the association/equality assertion actions. -/
def assertEpilogue (s : PState) (call : Str) (mid : Str) : PState :=
  let L := s.currentLineNumber
  { s with output := (s.output ++
      setLineText s.useMarkers L s.fileName ++ call ++ mid ++
      srcLocText s.fileName L ++ toL " )\n" ++
      toL "  if (anyExceptions()) return\n" ++
      setLineText s.useMarkers (L + 1) s.fileName) }

/-- `AtAssertAssociated.action` (re-parses the line with the fixed
directive name, as the source does). -/
def atAssertAssociatedAction (s : PState) (line : Str) : Except PErr PState := do
  let argsO ← parseArgsFirstSecondRest (toL "@assertassociated") line
  match argsO with
  | none => .error .typeErr
  | some args => do
    let call ← assocCallText false args
    .ok (assertEpilogue s call [])

/-- `AtAssertNotAssociated.action`; `sp` is the `not`/`un` spelling the
matcher stored into `self.name`. -/
def atAssertNotAssociatedAction (s : PState) (line sp : Str) : Except PErr PState := do
  let argsO ← parseArgsFirstSecondRest (toL "@assert" ++ sp ++ toL "associated") line
  match argsO with
  | none => .error .typeErr
  | some args => do
    let call ← assocCallText true args
    .ok (assertEpilogue s call [])

/-- `AtAssertEqualUserDefined.action` (`sep = "=="`) and
`AtAssertEquivalent.action` (`sep = ".eqv."`): the call, then — only
when the whole line has no `message=` — a synthesized message naming
both operands. -/
def atEqualUserAction (kw sep : Str) (s : PState) (line : Str) : Except PErr PState := do
  let argsO ← parseArgsFirstSecondRest kw line
  match argsO with
  | none => .error .typeErr
  | some args =>
    match args with
    | a0 :: a1 :: rest =>
      let call :=
        match rest with
        | a2 :: _ => toL "  call assertTrue(" ++ a0 ++ sep ++ a1 ++ toL ", " ++ a2 ++ toL ", &\n"
        | [] => toL "  call assertTrue(" ++ a0 ++ sep ++ a1 ++ toL ", &\n"
      let msg :=
        if containsCI (toL "message=") line then []
        else toL " & message='<" ++ a0 ++ toL "> not equal to <" ++ a1 ++ toL ">', &\n"
      .ok (assertEpilogue s call msg)
    | _ => .error .indexErr

/-- The option parsing of `AtTest.action` (and `AtMpiTest.action`):
`npes` (leftmost search, eager `int`), `ifdef`/`ifndef`/`type`
(leading-`.*` matches — rightmost), `testParameters` and `cases`
(leftmost searches). -/
def parseTestOptions (kw line : Str) : Except PErr TestMethod := do
  let m : TestMethod := {}
  match (match stripCI kw (dropWS line) with
         | some r => parenAny r
         | none => none) with
  | none => .ok m
  | some opts => do
    let m ← match searchLeft npesAt opts with
      | some ns => do
        let l ← parseNpes ns
        pure { m with npRequests := some l }
      | none => pure m
    let m := match searchRight (keyWordAt (toL "ifdef")) opts with
      | some v => { m with ifdef := some v }
      | none => m
    let m := match searchRight (keyWordAt (toL "ifndef")) opts with
      | some v => { m with ifndef := some v }
      | none => m
    let m := match searchRight (keyWordAt (toL "type")) opts with
      | some v => { m with type := some v }
      | none => m
    let m := match searchLeft testParamsAt opts with
      | some v => { m with testParameters := some v }
      | none => m
    let m := match searchLeft casesAt opts with
      | some v => { m with cases := some v }
      | none => m
    pure m

/-- `AtTest.action` / `AtMpiTest.action`: parse options, pull the next
line, extract the subroutine name (fatal `MyError` on failure), record
the self-object name (possibly `None`), append the method descriptor,
comment out the directive, and write the declaration line through. -/
def atTestAction (kw : Str) (s : PState) (line : Str) : Except PErr PState := do
  let m0 ← parseTestOptions kw line
  let p := nextLineS s
  let nl := p.2.getD []
  let nm ← getSubroutineName nl
  let selfObj := getSelfObjectName nl
  let m1 := { m0 with name := nm, selfObjectName := selfObj }
  .ok { p.1 with
        currentSelfObjectName := some selfObj
        userTestMethods := p.1.userTestMethods ++ [m1]
        output := p.1.output ++ commentLine line ++ nl }

/-- The option parsing of `AtTestCase.action`: `constructor` (word may
be empty), `npes`, `cases`, `testParameters` — all leftmost searches. -/
def parseTestCaseOptions (line : Str) (tc : TestCase) : Except PErr TestCase := do
  match (match stripCI (toL "@testcase") (dropWS line) with
         | some r => parenAny r
         | none => none) with
  | none => .ok tc
  | some opts => do
    let tc := match searchLeft (keyWordAtOpt (toL "constructor")) opts with
      | some v => { tc with constructor := some v }
      | none => tc
    let tc ← match searchLeft npesAt opts with
      | some ns => do
        let l ← parseNpes ns
        pure { tc with npRequests := some l }
      | none => pure tc
    let tc := match searchLeft casesAt opts with
      | some v => { tc with cases := some v }
      | none => tc
    let tc := match searchLeft testParamsAt opts with
      | some v => { tc with testParameters := some v }
      | none => tc
    pure tc

/-- `AtTestCase.action`: options, lookahead type declaration (uncaught
`AttributeError` when it does not parse), comment the directive, write
the declaration through. -/
def atTestCaseAction (s : PState) (line : Str) : Except PErr PState := do
  let tc1 ← parseTestCaseOptions line s.userTestCase
  let p := nextLineS { s with userTestCase := tc1 }
  let nl := p.2.getD []
  let ty ← getTypeName nl
  .ok { p.1 with
        userTestCase := { p.1.userTestCase with type := some ty }
        output := p.1.output ++ commentLine line ++ nl }

/-- `AtBefore.action`. -/
def atBeforeAction (s : PState) (line : Str) : Except PErr PState := do
  let p := nextLineS s
  let nl := p.2.getD []
  let nm ← getSubroutineName nl
  .ok { p.1 with
        userTestCase := { p.1.userTestCase with setUp := some nm }
        output := p.1.output ++ commentLine line ++ nl }

/-- `AtAfter.action`. -/
def atAfterAction (s : PState) (line : Str) : Except PErr PState := do
  let p := nextLineS s
  let nl := p.2.getD []
  let nm ← getSubroutineName nl
  .ok { p.1 with
        userTestCase := { p.1.userTestCase with tearDown := some nm }
        output := p.1.output ++ commentLine line ++ nl }

/-- `AtTestParameter.action`: comment the directive first, then the
lookahead; the type name is captured only on first occurrence; with an
option list, the constructor is the explicit word or else the (just
ensured) parameter type.  `tparamCapture` is the capture-on-first-
occurrence step (lines 607-609). -/
def tparamCapture (p1 : PState) (nl : Str) : Except PErr PState :=
  if p1.userTestCase.testParameterType.isNone then do
    let ty ← getTypeName nl
    pure { p1 with userTestCase := { p1.userTestCase with testParameterType := some ty } }
  else pure p1

def atTestParameterAction (s : PState) (line : Str) : Except PErr PState := do
  let opts : Option Str :=
    match stripCI (toL "@testparameter") (dropWS line) with
    | some r => parenAny r
    | none => none
  let p := nextLineS { s with output := s.output ++ commentLine line }
  let nl := p.2.getD []
  let s3 ← tparamCapture p.1 nl
  let s4 := { s3 with output := s3.output ++ nl }
  match opts with
  | none => .ok s4
  | some o =>
    match searchLeft (keyWordAtOpt (toL "constructor")) o with
    | some v =>
      .ok { s4 with userTestCase := { s4.userTestCase with testParameterConstructor := some v } }
    | none => do
      let ty ← dg s4.userTestCase.testParameterType
      .ok { s4 with userTestCase := { s4.userTestCase with testParameterConstructor := some ty } }

/-! ### Registry and dispatch -/

/-- The recognizers, as listed in `Parser.__init__` (`self.actions`). -/
inductive AKind
  | test | mpitest | testcase | suite | begin | assert | assertAssoc
  | assertNotAssoc | equalUser | equiv | mpiassert | before | after | testParam
deriving DecidableEq, Repr

/-- First matching recognizer in registry order (`parse`'s loop over
`self.actions`). -/
def selectAction (line : Str) : Option AKind :=
  if matchAtTest (toL "@test") line then some .test
  else if matchAtTest (toL "@mpitest") line then some .mpitest
  else if matchAtTestCase line then some .testcase
  else if (matchAtSuite line).isSome then some .suite
  else if (matchAtBegin line).isSome then some .begin
  else if (matchAtAssert line).isSome then some .assert
  else if matchAtAssertAssociated line then some .assertAssoc
  else if (matchAtAssertNotAssociated line).isSome then some .assertNotAssoc
  else if matchTwoPlusArgs (toL "@assertequaluserdefined") line then some .equalUser
  else if matchTwoPlusArgs (toL "@assertequivalent") line then some .equiv
  else if (matchAtMpiAssert line).isSome then some .mpiassert
  else if matchAtBefore line then some .before
  else if matchAtAfter line then some .after
  else if matchAtTestParameter line then some .testParam
  else none

/-- Run the action of recognizer `k` on the line (the match data is
recomputed inside, which is sound because matching is pure). -/
def runAction (k : AKind) (s : PState) (line : Str) : Except PErr PState :=
  match k with
  | .test => atTestAction (toL "@test") s line
  | .mpitest => atTestAction (toL "@mpitest") s line
  | .testcase => atTestCaseAction s line
  | .suite =>
    match matchAtSuite line with
    | some nm => .ok (atSuiteAction s nm)
    | none => .error .attrErr
  | .begin =>
    match matchAtBegin line with
    | some nm => .ok (atBeginAction s nm line)
    | none => .error .attrErr
  | .assert =>
    match matchAtAssert line with
    | some va => .ok (atAssertAction s va.1 va.2)
    | none => .error .attrErr
  | .assertAssoc => atAssertAssociatedAction s line
  | .assertNotAssoc =>
    match matchAtAssertNotAssociated line with
    | some sp => atAssertNotAssociatedAction s line sp
    | none => .error .attrErr
  | .equalUser => atEqualUserAction (toL "@assertequaluserdefined") (toL "==") s line
  | .equiv => atEqualUserAction (toL "@assertequivalent") (toL ".eqv.") s line
  | .mpiassert =>
    match matchAtMpiAssert line with
    | some va => atMpiAssertAction s va.1 va.2
    | none => .error .attrErr
  | .before => atBeforeAction s line
  | .after => atAfterAction s line
  | .testParam => atTestParameterAction s line

/-- `Parser.run`'s inner `parse`: dispatch to the first matching
recognizer, or copy the line through verbatim. -/
def parseLine (s : PState) (line : Str) : Except PErr PState :=
  match selectAction line with
  | some k => runAction k s line
  | none => .ok { s with output := s.output ++ line }

/-- The scan loop, with fuel (each iteration consumes at least one
input line, so `input.length + 1` fuel always suffices). -/
def runLoop : Nat → PState → Except PErr PState
  | 0, s => .ok s
  | fuel + 1, s =>
    let p := nextLineS s
    match p.2 with
    | none => .ok p.1
    | some l => do
      let s2 ← parseLine p.1 l
      runLoop fuel s2

/-- The scan phase of `Parser.run`. -/
def runScan (s : PState) : Except PErr PState := runLoop (s.input.length + 1) s

/-! ### Code emitter -/

/-- Concatenate text fragments. -/
def listJoin (l : List Str) : Str := l.foldr (fun a b => a ++ b) []

/-- `Parser.printHeader`. -/
def printHeaderText (s : PState) : Str :=
  toL "\nmodule " ++ s.wrapModuleName ++ toL "\n   use pFUnit_mod\n" ++
  (if s.userModuleName ≠ [] then toL "   use " ++ s.userModuleName ++ toL "\n" else []) ++
  toL "   implicit none\n   private\n\n"

/-- `Parser.printTail`. -/
def printTailText (s : PState) : Str :=
  toL "\nend module " ++ s.wrapModuleName ++ toL "\n\n"

/-- `Parser.printWrapUserTestCase` (reads `userTestCase['type']`,
`KeyError` if absent — its caller guards on presence). -/
def printWrapUserTestCaseText (s : PState) : Except PErr Str := do
  let ty ← dg s.userTestCase.type
  .ok (toL "   public :: WrapUserTestCase\n   public :: makeCustomTest\n" ++
    toL "   type, extends(" ++ ty ++ toL ") :: WrapUserTestCase\n" ++
    toL "      procedure(userTestMethod), nopass, pointer :: testMethodPtr\n" ++
    toL "   contains\n      procedure :: runMethod\n   end type WrapUserTestCase\n\n" ++
    toL "   abstract interface\n     subroutine userTestMethod(this)\n" ++
    (if s.userModuleName ≠ [] then toL "        use " ++ s.userModuleName ++ toL "\n" else []) ++
    (match s.userTestCase.type with
     | some t => toL "        class (" ++ t ++ toL "), intent(inout) :: this\n"
     | none => []) ++
    toL "     end subroutine userTestMethod\n   end interface\n\n")

/-- `Parser.printRunMethod`. -/
def printRunMethodText : Str :=
  toL "   subroutine runMethod(this)\n" ++
  toL "      class (WrapUserTestCase), intent(inout) :: this\n\n" ++
  toL "      call this%testMethodPtr(this)\n   end subroutine runMethod\n\n"

/-- `Parser.printParameterHeader`. -/
def printParameterHeaderText (ty : Str) : Str :=
  toL "   type (" ++ ty ++ toL "), allocatable :: testParameters(:)\n" ++
  toL "   type (" ++ ty ++ toL ") :: testParameter\n" ++
  toL "   integer :: iParam \n   integer, allocatable :: cases(:) \n \n"

/-- Per-method fallback: method override, else case default. -/
def fallback (a b : Option Str) : Option Str :=
  match a with
  | some x => some x
  | none => b

/-- The `#ifdef`/`#ifndef` guard opener for a method. -/
def guardOpen (m : TestMethod) : Str :=
  match m.ifdef with
  | some d => toL "#ifdef " ++ d ++ toL "\n"
  | none =>
    match m.ifndef with
    | some d => toL "#ifndef " ++ d ++ toL "\n"
    | none => []

/-- The matching `#endif`. -/
def guardClose (m : TestMethod) : Str :=
  if m.ifdef.isSome || m.ifndef.isSome then toL "#endif\n" else []

/-- `Parser.addSimpleTestMethod`. -/
def addSimpleTestMethodText (tc : TestCase) (m : TestMethod) : Str :=
  let args := toL "'" ++ m.name ++ toL "', " ++ m.name
  let args := args ++
    (match fallback m.setUp tc.setUp with
     | some su => toL ", " ++ su
     | none => [])
  let args := args ++
    (match fallback m.tearDown tc.tearDown with
     | some td => toL ", " ++ td
     | none => [])
  let ty := m.type.getD (toL "newTestMethod")
  toL "   call suite%addTest(" ++ ty ++ toL "(" ++ args ++ toL "))\n"

/-- One registration call of `Parser.addMpiTestMethod`, for process
count `n`. -/
def mpiRegLine (tc : TestCase) (m : TestMethod) (n : Nat) : Str :=
  let args := toL "'" ++ m.name ++ toL "', " ++ m.name ++ toL ", " ++ natToStr n
  let args := args ++
    (match fallback m.setUp tc.setUp with
     | some su => toL ", " ++ su
     | none => [])
  let args := args ++
    (match fallback m.tearDown tc.tearDown with
     | some td => toL ", " ++ td
     | none => [])
  let ty := m.type.getD (toL "newMpiTestMethod")
  toL "   call suite%addTest(" ++ ty ++ toL "(" ++ args ++ toL "))\n"

/-- `Parser.addMpiTestMethod`: one registration call per entry of
`npRequests` (reading the key raises `KeyError` if absent; the caller
guards on presence). -/
def addMpiTestMethodText (tc : TestCase) (m : TestMethod) : Except PErr Str :=
  match m.npRequests with
  | some l => .ok (listJoin (l.map (mpiRegLine tc m)))
  | none => .error .keyErr

/-- `Parser.addUserTestMethod`.  `allM` is the full method list (used
for the `any('npRequests' in ...)` scan).  Mirrors the Python local
variables: `cases`/`testParameters` "in locals()" become `Option`
presence; note the source reads `testMethod['cases']` (line 887) even
when `cases` was bound from the case level — a latent `KeyError` — and
`userTestCase['testParameterConstructor']` likewise. -/
def addUserTestMethodText (tc : TestCase) (allM : List TestMethod) (m : TestMethod) :
    Except PErr Str := do
  let args := toL "'" ++ m.name ++ toL "', " ++ m.name
  let npRequests :=
    match m.npRequests with
    | some l => l
    | none =>
      match tc.npRequests with
      | some l => l
      | none => [1]
  let casesDefined := m.cases.isSome || tc.cases.isSome
  let casesPart ← if casesDefined then do
      let mc ← dg m.cases
      let ctor ← dg tc.testParameterConstructor
      pure (toL "   cases = " ++ mc ++ toL "\n" ++
        toL "   testParameters = [(" ++ ctor ++
        toL "(cases(iCase)), iCase = 1, size(cases))]\n\n")
    else pure ([] : Str)
  let tParams : Option Str :=
    if tc.testParameterType.isSome then fallback m.testParameters tc.testParameters else none
  let found := allM.any (fun mm => mm.npRequests.isSome)
  let isMpi := tc.npRequests.isSome || found
  let tpDefined := tParams.isSome
  let testParameterArg :=
    if tpDefined || casesDefined || isMpi then toL ", testParameter" else ([] : Str)
  let tpPart :=
    match tParams with
    | some tp => toL "   testParameters = " ++ tp ++ toL "\n\n"
    | none => ([] : Str)
  let loopPer (n : Nat) : Str :=
    (if tpDefined || casesDefined then
       toL "   do iParam = 1, size(testParameters)\n      testParameter = testParameters(iParam)\n"
     else []) ++
    (if isMpi then
       toL "   call testParameter%setNumProcessesRequested(" ++ natToStr n ++ toL ")\n"
     else []) ++
    toL "   call suite%addTest(makeCustomTest(" ++ args ++ testParameterArg ++ toL "))\n" ++
    (if casesDefined || tpDefined then toL "   end do\n" else [])
  .ok (casesPart ++ tpPart ++ listJoin (npRequests.map loopPer))

/-- `Parser.printMakeSuite`. -/
def printMakeSuiteText (s : PState) : Except PErr Str := do
  let head := toL "function " ++ s.suiteName ++ toL "() result(suite)\n" ++
    toL "   use pFUnit_mod\n" ++
    (if s.userModuleName ≠ [] then toL "   use " ++ s.userModuleName ++ toL "\n" else []) ++
    toL "   use " ++ s.wrapModuleName ++ toL "\n   type (TestSuite) :: suite\n\n"
  let externs :=
    if s.userModuleName = [] then
      listJoin (s.userTestMethods.map (fun m =>
        guardOpen m ++ toL "   external " ++ m.name ++ toL "\n" ++ guardClose m)) ++
      toL "\n" ++
      (match s.userTestCase.setUp with
       | some su => toL "   external " ++ su ++ toL "\n"
       | none => []) ++
      (match s.userTestCase.tearDown with
       | some td => toL "   external " ++ td ++ toL "\n"
       | none => []) ++
      toL "\n"
    else []
  let paramHeader :=
    match s.userTestCase.testParameterType with
    | some ty => printParameterHeaderText ty
    | none => []
  let mk := toL "   suite = newTestSuite('" ++ s.suiteName ++ toL "')\n\n"
  let body ← s.userTestMethods.mapM (fun m => do
    let reg ←
      if s.userTestCase.type.isSome then
        addUserTestMethodText s.userTestCase s.userTestMethods m
      else if m.npRequests.isSome then addMpiTestMethodText s.userTestCase m
      else pure (addSimpleTestMethodText s.userTestCase m)
    pure (guardOpen m ++ reg ++ toL "\n" ++ guardClose m))
  .ok (head ++ externs ++ paramHeader ++ mk ++ listJoin body ++
    toL "\nend function " ++ s.suiteName ++ toL "\n\n")

/-- `Parser.printMakeCustomTest`. -/
def printMakeCustomTestText (tc : TestCase) : Except PErr Str := do
  let args := toL "methodName, testMethod" ++
    (if tc.testParameterType.isSome then toL ", testParameter" else [])
  let declareArgs :=
    toL "#ifdef INTEL_13\n      use pfunit_mod, only: testCase\n#endif\n" ++
    toL "      type (WrapUserTestCase) :: aTest\n" ++
    toL "#ifdef INTEL_13\n      target :: aTest\n" ++
    toL "      class (WrapUserTestCase), pointer :: p\n#endif\n" ++
    toL "      character(len=*), intent(in) :: methodName\n" ++
    toL "      procedure(userTestMethod) :: testMethod\n" ++
    (match tc.testParameterType with
     | some ty => toL "      type (" ++ ty ++ toL "), intent(in) :: testParameter\n"
     | none => [])
  let ctorPart ← match tc.constructor with
    | some c => do
      let ty ← dg tc.type
      let ctor := c ++ (if tc.testParameterType.isSome then toL "(testParameter)" else toL "()")
      pure (toL "      aTest%" ++ ty ++ toL " = " ++ ctor ++ toL "\n\n")
    | none => pure ([] : Str)
  .ok (toL "   function makeCustomTest(" ++ args ++ toL ") result(aTest)\n" ++
    declareArgs ++ ctorPart ++
    toL "      aTest%testMethodPtr => testMethod\n" ++
    toL "#ifdef INTEL_13\n      p => aTest\n      call p%setName(methodName)\n" ++
    toL "#else\n      call aTest%setName(methodName)\n#endif\n" ++
    (if tc.testParameterType.isSome then
       toL "      call aTest%setTestParameter(testParameter)\n"
     else []) ++
    toL "   end function makeCustomTest\n")

/-- `Parser.makeWrapperModule`: header, optional wrapper scaffolding
(defaulting `testParameterType` to `MpiTestParameter` for MPI custom
cases), tail, then the suite factory. -/
def wrapCustomPart (s : PState) : Except PErr (PState × Str) :=
  if s.userTestCase.type.isSome then do
    let found := s.userTestMethods.any (fun m => m.npRequests.isSome)
    let isMpi := s.userTestCase.npRequests.isSome || found
    let s' := if isMpi && s.userTestCase.testParameterType.isNone then
        { s with userTestCase :=
            { s.userTestCase with testParameterType := some (toL "MpiTestParameter") } }
      else s
    let t ← printMakeCustomTestText s'.userTestCase
    pure (s', t)
  else pure (s, ([] : Str))

def makeWrapperModule (s : PState) : Except PErr PState := do
  let hdr := printHeaderText s
  let part1 ← if s.userTestCase.type.isSome then printWrapUserTestCaseText s
    else pure ([] : Str)
  let part2 := if s.userTestCase.type.isSome then printRunMethodText else ([] : Str)
  let sp ← wrapCustomPart s
  let s1 := sp.1
  let suiteTxt ← printMakeSuiteText s1
  .ok { s1 with output := (s1.output ++ hdr ++ part1 ++ toL "contains\n\n" ++
    part2 ++ sp.2 ++ printTailText s1 ++ suiteTxt) }

/-- `Parser.run`: scan, then the two post-scan defaults (suite name;
`constructor` from `testParameterType`), then the emitter. -/
def runTranslator (s : PState) : Except PErr PState := do
  let s1 ← runScan s
  let s2 := if s1.suiteName = [] then { s1 with suiteName := s1.defaultSuiteName } else s1
  let s3 :=
    if s2.userTestCase.testParameterType.isSome && s2.userTestCase.constructor.isNone then
      { s2 with userTestCase :=
          { s2.userTestCase with constructor := s2.userTestCase.testParameterType } }
    else s2
  makeWrapperModule s3

/-! ### Helper lemmas -/

/-- There is a case-insensitive mismatch between `pat` and `x` before
either runs out (so `pat` can never match any extension of `x`). -/
def ciStuck : Str → Str → Bool
  | [], _ => false
  | _ :: _, [] => false
  | p :: ps, c :: cs => !(lowEq p c) || ciStuck ps cs

/-- `pat` and `x` agree case-insensitively, character for character. -/
def ciEq : Str → Str → Bool
  | [], [] => true
  | p :: ps, c :: cs => lowEq p c && ciEq ps cs
  | _, _ => false

theorem stripCI_append_some :
    ∀ (pat x r y : Str), stripCI pat x = some r → stripCI pat (x ++ y) = some (r ++ y)
  | [], x, r, y, h => by
    simp [stripCI] at h
    simp [stripCI, h]
  | _ :: _, [], _, _, h => by simp [stripCI] at h
  | p :: ps, c :: cs, r, y, h => by
    by_cases hc : lowEq p c
    · simp [stripCI, hc] at h ⊢
      exact stripCI_append_some ps cs r y h
    · simp [stripCI, hc] at h

theorem stripCI_append_none :
    ∀ (pat x : Str), ciStuck pat x = true → ∀ y, stripCI pat (x ++ y) = none
  | [], _, h, _ => by simp [ciStuck] at h
  | _ :: _, [], h, _ => by simp [ciStuck] at h
  | p :: ps, c :: cs, h, y => by
    by_cases hc : lowEq p c
    · simp [ciStuck, hc] at h
      simp [stripCI, hc]
      exact stripCI_append_none ps cs h y
    · simp [stripCI, hc]

theorem stripCI_of_ciEq :
    ∀ (pat x : Str), ciEq pat x = true → ∀ y, stripCI pat (x ++ y) = some y
  | [], [], _, _ => by simp [stripCI]
  | [], _ :: _, h, _ => by simp [ciEq] at h
  | _ :: _, [], h, _ => by simp [ciEq] at h
  | p :: ps, c :: cs, h, y => by
    simp [ciEq] at h
    simp [stripCI, h.1]
    exact stripCI_of_ciEq ps cs h.2 y

theorem ciEq_refl : ∀ s : Str, ciEq s s = true
  | [] => rfl
  | c :: t => by simp [ciEq, lowEq]; exact ciEq_refl t

theorem ciEq_append :
    ∀ {p1 x1 p2 x2 : Str}, ciEq p1 x1 = true → ciEq p2 x2 = true →
      ciEq (p1 ++ p2) (x1 ++ x2) = true
  | [], [], _, _, _, h2 => h2
  | [], _ :: _, _, _, h1, _ => by simp [ciEq] at h1
  | _ :: _, [], _, _, h1, _ => by simp [ciEq] at h1
  | p :: ps, c :: cs, p2, x2, h1, h2 => by
    simp [ciEq] at h1
    simp [ciEq, h1.1]
    exact ciEq_append h1.2 h2

theorem dropWhile_cons_false {p : Char → Bool} {c : Char} (h : p c = false) (t : Str) :
    List.dropWhile p (c :: t) = c :: t := by
  simp [List.dropWhile, h]

theorem dropWhile_cons_true {p : Char → Bool} {c : Char} (h : p c = true) (t : Str) :
    List.dropWhile p (c :: t) = List.dropWhile p t := by
  simp [List.dropWhile, h]

theorem dropWhile_eq_self_of_all {p : Char → Bool} :
    ∀ {s : Str}, (∀ c ∈ s, p c = false) → List.dropWhile p s = s
  | [], _ => rfl
  | c :: t, h => by
    have := h c (by simp)
    simp [List.dropWhile, this]

theorem takeWhile_append_not {p : Char → Bool} :
    ∀ {xs : Str} {y : Char} {ys : Str}, (∀ a ∈ xs, p a = true) → p y = false →
      List.takeWhile p (xs ++ y :: ys) = xs
  | [], y, ys, _, hy => by simp [List.takeWhile, hy]
  | x :: xs, y, ys, hall, hy => by
    have hx := hall x (by simp)
    simp [List.takeWhile, hx]
    exact takeWhile_append_not (fun a ha => hall a (by simp [ha])) hy

theorem dropWhile_append_not {p : Char → Bool} :
    ∀ {xs : Str} {y : Char} {ys : Str}, (∀ a ∈ xs, p a = true) → p y = false →
      List.dropWhile p (xs ++ y :: ys) = y :: ys
  | [], y, ys, _, hy => by simp [List.dropWhile, hy]
  | x :: xs, y, ys, hall, hy => by
    have hx := hall x (by simp)
    simp [List.dropWhile, hx]
    exact dropWhile_append_not (fun a ha => hall a (by simp [ha])) hy

theorem pyWord_not_space {c : Char} (h : pyWord c = true) : pySpace c = false := by
  cases hs : pySpace c
  · rfl
  · exfalso
    simp [pySpace] at hs
    rcases hs with ((((h' | h') | h') | h') | h') | h' <;> subst h' <;> simp [pyWord] at h

theorem leadsWith_append_self : ∀ (n t : Str), leadsWith n (n ++ t) = true
  | [], t => by simp [leadsWith]
  | c :: n, t => by
    simp [leadsWith]
    exact leadsWith_append_self n t

theorem containsSub_of_leads {n h : Str} (hl : leadsWith n h = true) :
    containsSub n h = true := by
  cases h with
  | nil => simpa [containsSub] using hl
  | cons c t => simp [containsSub, hl]

theorem containsSub_append_left {n : Str} :
    ∀ (x : Str) {y : Str}, containsSub n y = true → containsSub n (x ++ y) = true
  | [], y, h => h
  | c :: x, y, h => by
    simp [containsSub]
    right
    exact containsSub_append_left x h

theorem containsSub_middle (n a b : Str) : containsSub n (a ++ (n ++ b)) = true :=
  containsSub_append_left a (containsSub_of_leads (leadsWith_append_self n b))

theorem tryVariants_stuck :
    ∀ (vs : List Str) {x : Str}, (∀ v ∈ vs, ciStuck v x = true) → ∀ y,
      tryVariants vs (x ++ y) = none
  | [], _, _, _ => rfl
  | v :: vs, x, h, y => by
    have hv := h v (by simp)
    simp [tryVariants, stripCI_append_none v x hv y]
    exact tryVariants_stuck vs (fun u hu => h u (by simp [hu])) y

theorem splitTop_word :
    ∀ (s : Str) (acc : Str), (∀ c ∈ s, pyWord c = true) →
      splitTop s 0 none acc = [acc.reverse ++ s]
  | [], acc, _ => by simp [splitTop]
  | c :: t, acc, h => by
    have hc := h c (by simp)
    have h1 : c ≠ '\'' := fun e => by subst e; simp [pyWord] at hc
    have h2 : c ≠ '"' := fun e => by subst e; simp [pyWord] at hc
    have h3 : c ≠ '(' := fun e => by subst e; simp [pyWord] at hc
    have h4 : c ≠ '[' := fun e => by subst e; simp [pyWord] at hc
    have h5 : c ≠ '\x7b' := fun e => by subst e; simp [pyWord] at hc
    have h6 : c ≠ ')' := fun e => by subst e; simp [pyWord] at hc
    have h7 : c ≠ ']' := fun e => by subst e; simp [pyWord] at hc
    have h8 : c ≠ '\x7d' := fun e => by subst e; simp [pyWord] at hc
    have h9 : c ≠ ',' := fun e => by subst e; simp [pyWord] at hc
    simp only [splitTop, h1, h2, h3, h4, h5, h6, h7, h8, h9, if_false,
      decide_eq_true_eq, if_neg, not_false_iff, Bool.or_self, Bool.false_and]
    rw [splitTop_word t (c :: acc) (fun d hd => h d (by simp [hd]))]
    simp

theorem trimWS_eq_self_of_word {s : Str} (h : ∀ c ∈ s, pyWord c = true) :
    trimWS s = s := by
  have hns : ∀ c ∈ s, pySpace c = false := fun c hc => pyWord_not_space (h c hc)
  have h1 : dropWS s = s := dropWhile_eq_self_of_all hns
  have h2 : dropWS s.reverse = s.reverse :=
    dropWhile_eq_self_of_all (fun c hc => hns c (List.mem_reverse.mp hc))
  simp [trimWS, dropTrailWS, h1, h2]

theorem pda_ident {s : Str} (h1 : s ≠ []) (h2 : ∀ c ∈ s, pyWord c = true) :
    parseDirectiveArguments s = [s] := by
  have ht : trimWS s = s := trimWS_eq_self_of_word h2
  have : splitTop s 0 none [] = [s] := by
    simpa using splitTop_word s [] h2
  simp [parseDirectiveArguments, ht, h1, this]

theorem contains_nl_false {args : Str} (h2 : ∀ c ∈ args, pyWord c = true) :
    args.contains '\n' = false := by
  have : ¬ ('\n' ∈ args) := fun hm => by
    have := h2 _ hm
    simp [pyWord] at this
  simpa using this

theorem parenArgs_ident {args : Str} (h1 : args ≠ []) (h2 : ∀ c ∈ args, pyWord c = true) :
    parenArgs (toL "(" ++ (args ++ toL ")\n")) = some args := by
  have hd : dropWS ('(' :: (args ++ [')', '\n'])) = '(' :: (args ++ [')', '\n']) :=
    dropWhile_cons_false (by decide) _
  have hrev : (args ++ [')', '\n']).reverse = '\n' :: (')' :: args.reverse) := by simp
  have hd2 : dropWS ((args ++ [')', '\n']).reverse) = ')' :: args.reverse := by
    rw [hrev]
    rw [show dropWS ('\n' :: (')' :: args.reverse)) = dropWS (')' :: args.reverse) from
      dropWhile_cons_true (by decide) _]
    exact dropWhile_cons_false (by decide) _
  have hany : args.any pyWord = true := by
    obtain ⟨c, t, rfl⟩ : ∃ c t, args = c :: t := by
      cases args with
      | nil => exact absurd rfl h1
      | cons c t => exact ⟨c, t, rfl⟩
    simp [List.any]
    left
    exact h2 c (by simp)
  show parenArgs ('(' :: (args ++ [')', '\n'])) = some args
  simp only [parenArgs, hd, hd2, List.reverse_reverse, hany,
    contains_nl_false h2, Bool.and_true, Bool.not_false, if_true]

theorem stripCI_decomp :
    ∀ (pat inp r : Str), stripCI pat inp = some r → ∃ x, inp = x ++ r ∧ ciEq pat x = true
  | [], inp, r, h => by
    simp [stripCI] at h
    exact ⟨[], by simp [h], rfl⟩
  | _ :: _, [], _, h => by simp [stripCI] at h
  | p :: ps, c :: cs, r, h => by
    by_cases hc : lowEq p c
    · simp only [stripCI, hc, if_true] at h
      obtain ⟨x, hx, he⟩ := stripCI_decomp ps cs r h
      exact ⟨c :: x, by simp [hx], by simp [ciEq, hc, he]⟩
    · simp [stripCI, hc] at h

theorem lowEq_congr {a b : Char} (h : lowEq a b = true) (c : Char) :
    lowEq c a = lowEq c b := by
  simp [lowEq] at h ⊢
  constructor <;> intro h' <;> simp [h', h] at h ⊢

theorem ciStuck_of_ciEq :
    ∀ (p x q : Str), ciEq p x = true → ciStuck q p = true → ciStuck q x = true
  | [], [], _, _, hs => hs
  | [], _ :: _, _, he, _ => by simp [ciEq] at he
  | _ :: _, [], _, he, _ => by simp [ciEq] at he
  | p :: ps, c :: cs, [], _, hs => by simp [ciStuck] at hs
  | p :: ps, c :: cs, q :: qs, he, hs => by
    simp only [ciEq, Bool.and_eq_true] at he
    simp only [ciStuck, Bool.or_eq_true, Bool.not_eq_true'] at hs ⊢
    rcases hs with hs | hs
    · left
      rw [← lowEq_congr he.1 q]
      exact hs
    · right
      exact ciStuck_of_ciEq ps cs qs he.2 hs

theorem selectAction_of_assert {line v args : Str}
    (h : matchAtAssert line = some (v, args)) : selectAction line = some AKind.assert := by
  have h' := h
  unfold matchAtAssert matchAssertVariant at h'
  rcases e : stripCI (toL "@assert") (dropWS line) with _ | r
  · rw [e] at h'
    simp at h'
  · obtain ⟨x, hx, he⟩ := stripCI_decomp _ _ _ e
    have stuck : ∀ q : Str, ciStuck q (toL "@assert") = true →
        stripCI q (dropWS line) = none := fun q hq => by
      rw [hx]
      exact stripCI_append_none q x (ciStuck_of_ciEq _ _ _ he hq) r
    have hTest : matchAtTest (toL "@test") line = false := by
      simp only [matchAtTest, stuck (toL "@test") (by decide)]
    have hMpiTest : matchAtTest (toL "@mpitest") line = false := by
      simp only [matchAtTest, stuck (toL "@mpitest") (by decide)]
    have hTc : matchAtTestCase line = false := by
      simp only [matchAtTestCase, matchAtTest, stuck (toL "@testcase") (by decide)]
    have hSuite : matchAtSuite line = none := by
      simp only [matchAtSuite, stuck (toL "@suite") (by decide)]
    have hBegin : matchAtBegin line = none := by
      simp only [matchAtBegin, stuck (toL "module") (by decide)]
    simp only [selectAction, hTest, hMpiTest, hTc, hSuite, hBegin, h,
      Option.isSome_none, Option.isSome_some, Bool.false_eq_true, if_false, if_true]

theorem selectAction_of_mpiassert {line v args : Str}
    (h : matchAtMpiAssert line = some (v, args)) :
    selectAction line = some AKind.mpiassert := by
  have h' := h
  unfold matchAtMpiAssert matchAssertVariant at h'
  rcases e : stripCI (toL "@mpiassert") (dropWS line) with _ | r
  · rw [e] at h'
    simp at h'
  · obtain ⟨x, hx, he⟩ := stripCI_decomp _ _ _ e
    have stuck : ∀ q : Str, ciStuck q (toL "@mpiassert") = true →
        stripCI q (dropWS line) = none := fun q hq => by
      rw [hx]
      exact stripCI_append_none q x (ciStuck_of_ciEq _ _ _ he hq) r
    have hTest : matchAtTest (toL "@test") line = false := by
      simp only [matchAtTest, stuck (toL "@test") (by decide)]
    have hMpiTest : matchAtTest (toL "@mpitest") line = false := by
      simp only [matchAtTest, stuck (toL "@mpitest") (by decide)]
    have hTc : matchAtTestCase line = false := by
      simp only [matchAtTestCase, matchAtTest, stuck (toL "@testcase") (by decide)]
    have hSuite : matchAtSuite line = none := by
      simp only [matchAtSuite, stuck (toL "@suite") (by decide)]
    have hBegin : matchAtBegin line = none := by
      simp only [matchAtBegin, stuck (toL "module") (by decide)]
    have hAssert : matchAtAssert line = none := by
      simp only [matchAtAssert, matchAssertVariant, stuck (toL "@assert") (by decide)]
    have hAssoc : matchAtAssertAssociated line = false := by
      simp only [matchAtAssertAssociated, stuck (toL "@assertassociated") (by decide)]
    have hNot : matchAtAssertNotAssociated line = none := by
      simp only [matchAtAssertNotAssociated, stuck (toL "@assert") (by decide)]
    have hEq : matchTwoPlusArgs (toL "@assertequaluserdefined") line = false := by
      simp only [matchTwoPlusArgs, stuck (toL "@assertequaluserdefined") (by decide)]
    have hEqv : matchTwoPlusArgs (toL "@assertequivalent") line = false := by
      simp only [matchTwoPlusArgs, stuck (toL "@assertequivalent") (by decide)]
    simp only [selectAction, hTest, hMpiTest, hTc, hSuite, hBegin, hAssert, hAssoc, hNot,
      hEq, hEqv, h, Option.isSome_none, Option.isSome_some, Bool.false_eq_true,
      if_false, if_true]

/-- C4 (counterexample): with input file `dir/foo.pf`, the expansion of
`@assertTrue(x)` at line 5 is surrounded by markers naming
`dir/foo.pf` — the file name as passed — and no marker names the base
name `foo.pf`, although a marker built from the base name would differ;
the base name appears only inside the `SourceLocation` argument. -/
theorem c4_markers_full_filename_counterexample :
    basenameStr (toL "dir/foo.pf") = toL "foo.pf" ∧
    setLineText false 5 (toL "dir/foo.pf") ≠
      setLineText false 5 (basenameStr (toL "dir/foo.pf")) ∧
    (containsSub (setLineText false 5 (toL "dir/foo.pf"))
      (atAssertAction
        { initState (toL "dir/foo.pf") false [] with currentLineNumber := 5 }
        (toL "True") (toL "x")).output = true) ∧
    (containsSub (setLineText false 6 (toL "dir/foo.pf"))
      (atAssertAction
        { initState (toL "dir/foo.pf") false [] with currentLineNumber := 5 }
        (toL "True") (toL "x")).output = true) ∧
    (containsSub (setLineText false 5 (basenameStr (toL "dir/foo.pf")))
      (atAssertAction
        { initState (toL "dir/foo.pf") false [] with currentLineNumber := 5 }
        (toL "True") (toL "x")).output = false) ∧
    (containsSub (setLineText false 6 (basenameStr (toL "dir/foo.pf")))
      (atAssertAction
        { initState (toL "dir/foo.pf") false [] with currentLineNumber := 5 }
        (toL "True") (toL "x")).output = false) := by
  refine ⟨by decide, by decide, by decide, by decide, by decide, by decide⟩

/-- C4 (amended): for every line matched by the simple-assertion
recognizer at current line number `L`, dispatch selects it and the
emitted expansion is exactly the marker for `L`, then the rewritten
call with source location and guard, then the marker for `L + 1` —
both markers carrying the input file name exactly as given to the
parser (the base name is used only in the `SourceLocation` text). -/
theorem c4_assert_line_markers {line v args : Str} (s : PState)
    (h : matchAtAssert line = some (v, args)) :
    selectAction line = some AKind.assert ∧
    parseLine s line = .ok { s with output := (s.output ++
      setLineText s.useMarkers s.currentLineNumber s.fileName ++
      toL "  call assert" ++ v ++ toL "(" ++ args ++ toL ", &\n" ++
      srcLocText s.fileName s.currentLineNumber ++ toL " )\n" ++
      toL "  if (anyExceptions()) return\n" ++
      setLineText s.useMarkers (s.currentLineNumber + 1) s.fileName) } := by
  have hsel := selectAction_of_assert h
  refine ⟨hsel, ?_⟩
  simp only [parseLine, hsel, runAction, h, atAssertAction]

/-- Witness for C4's amended theorem at `@assertTrue(x)`. -/
theorem c4_assert_line_markers_witness :
    matchAtAssert (toL "@assertTrue(x)\n") = some (toL "True", toL "x") ∧
    selectAction (toL "@assertTrue(x)\n") = some AKind.assert ∧
    parseLine (initState (toL "dir/foo.pf") false []) (toL "@assertTrue(x)\n") =
      .ok { initState (toL "dir/foo.pf") false [] with output :=
        ((initState (toL "dir/foo.pf") false []).output ++
          setLineText false 0 (toL "dir/foo.pf") ++
          toL "  call assert" ++ toL "True" ++ toL "(" ++ toL "x" ++ toL ", &\n" ++
          srcLocText (toL "dir/foo.pf") 0 ++ toL " )\n" ++
          toL "  if (anyExceptions()) return\n" ++
          setLineText false 1 (toL "dir/foo.pf")) } :=
  ⟨by decide,
    c4_assert_line_markers (initState (toL "dir/foo.pf") false []) (by decide)⟩

/-- C9: for every line matched by the `@mpiAssert<Variant>` recognizer:
when no self object was ever captured (the `currentSelfObjectName`
attribute does not exist, e.g. no `@test` lookahead ran because the
enclosing test was disabled or commented out), the failure guard is
omitted entirely while the rest of the expansion — markers, call,
source location — is still emitted; when a self object is available,
the guard references its execution context (`<self>%context`). -/
theorem c9_mpiassert_guard_self_object {line v args : Str} (s : PState)
    (h : matchAtMpiAssert line = some (v, args)) :
    selectAction line = some AKind.mpiassert ∧
    (s.currentSelfObjectName = none →
      parseLine s line = .ok { s with output := (s.output ++
        setLineText s.useMarkers s.currentLineNumber s.fileName ++
        toL "  call assert" ++ v ++ toL "(" ++ args ++ toL ", &\n" ++
        srcLocText s.fileName s.currentLineNumber ++ toL " )\n" ++
        setLineText s.useMarkers (s.currentLineNumber + 1) s.fileName) }) ∧
    (∀ n : Str, s.currentSelfObjectName = some (some n) →
      parseLine s line = .ok { s with output := (s.output ++
        setLineText s.useMarkers s.currentLineNumber s.fileName ++
        toL "  call assert" ++ v ++ toL "(" ++ args ++ toL ", &\n" ++
        srcLocText s.fileName s.currentLineNumber ++ toL " )\n" ++
        toL "  if (anyExceptions(" ++ n ++ toL "%context)) return\n" ++
        setLineText s.useMarkers (s.currentLineNumber + 1) s.fileName) }) := by
  have hsel := selectAction_of_mpiassert h
  refine ⟨hsel, ?_, ?_⟩
  · intro hnone
    simp only [parseLine, hsel, runAction, h, atMpiAssertAction, hnone]
    simp [List.append_assoc]
  · intro n hsome
    simp only [parseLine, hsel, runAction, h, atMpiAssertAction, hsome]
    simp [List.append_assoc]

/-- Witness for C9 at `@mpiAssertTrue(x)`, in both self-object states. -/
theorem c9_mpiassert_guard_self_object_witness :
    matchAtMpiAssert (toL "@mpiAssertTrue(x)\n") = some (toL "True", toL "x") ∧
    parseLine (initState (toL "t.pf") false []) (toL "@mpiAssertTrue(x)\n") =
      .ok { initState (toL "t.pf") false [] with output :=
        ((initState (toL "t.pf") false []).output ++
          setLineText false 0 (toL "t.pf") ++
          toL "  call assert" ++ toL "True" ++ toL "(" ++ toL "x" ++ toL ", &\n" ++
          srcLocText (toL "t.pf") 0 ++ toL " )\n" ++
          setLineText false 1 (toL "t.pf")) } ∧
    parseLine { initState (toL "t.pf") false [] with
        currentSelfObjectName := some (some (toL "this")) } (toL "@mpiAssertTrue(x)\n") =
      .ok { { initState (toL "t.pf") false [] with
          currentSelfObjectName := some (some (toL "this")) } with output :=
        ((initState (toL "t.pf") false []).output ++
          setLineText false 0 (toL "t.pf") ++
          toL "  call assert" ++ toL "True" ++ toL "(" ++ toL "x" ++ toL ", &\n" ++
          srcLocText (toL "t.pf") 0 ++ toL " )\n" ++
          toL "  if (anyExceptions(" ++ toL "this" ++ toL "%context)) return\n" ++
          setLineText false 1 (toL "t.pf")) } :=
  ⟨by decide,
    (c9_mpiassert_guard_self_object (initState (toL "t.pf") false [])
      (by decide)).2.1 rfl,
    (c9_mpiassert_guard_self_object
      { initState (toL "t.pf") false [] with
        currentSelfObjectName := some (some (toL "this")) }
      (by decide)).2.2 (toL "this") rfl⟩

theorem subr_name_no_parens {nm : Str} (h1 : nm ≠ []) (h2 : ∀ c ∈ nm, pyWord c = true) :
    getSubroutineName (toL "subroutine " ++ nm ++ toL "\n") = .ok nm ∧
    getSelfObjectName (toL "subroutine " ++ nm ++ toL "\n") = none := by
  obtain ⟨hd, tl, rfl⟩ : ∃ hd tl, nm = hd :: tl := by
    cases nm with
    | nil => exact absurd rfl h1
    | cons hd tl => exact ⟨hd, tl, rfl⟩
  have hhd : pySpace hd = false := pyWord_not_space (h2 hd (by simp))
  have hdw : dropWS (toL "subroutine " ++ (hd :: tl) ++ toL "\n") =
      toL "subroutine " ++ (hd :: tl) ++ toL "\n" := by
    show dropWS ('s' :: (toL "ubroutine " ++ (hd :: tl) ++ toL "\n")) = _
    exact dropWhile_cons_false (by decide) _
  have hstrip : stripCI (toL "subroutine") (toL "subroutine " ++ (hd :: tl) ++ toL "\n") =
      some (' ' :: ((hd :: tl) ++ toL "\n")) := by
    have := stripCI_of_ciEq (toL "subroutine") (toL "subroutine") (by decide)
      (' ' :: ((hd :: tl) ++ toL "\n"))
    simpa using this
  have hY : ((hd :: tl) ++ toL "\n") = hd :: (tl ++ toL "\n") := rfl
  have hr1 : dropWS ((hd :: tl) ++ toL "\n") = (hd :: tl) ++ toL "\n" := by
    rw [hY]
    exact dropWhile_cons_false hhd _
  have htw : takeWord ((hd :: tl) ++ toL "\n") = hd :: tl := by
    show List.takeWhile pyWord ((hd :: tl) ++ '\n' :: []) = hd :: tl
    exact takeWhile_append_not h2 (by decide)
  have hdwo : dropWord ((hd :: tl) ++ toL "\n") = toL "\n" := by
    show List.dropWhile pyWord ((hd :: tl) ++ '\n' :: []) = '\n' :: []
    exact dropWhile_append_not h2 (by decide)
  constructor
  · simp only [getSubroutineName, hdw, hstrip]
    rw [if_pos (by decide)]
    simp only [hr1, htw, hdwo]
    rw [show dropWS (toL "\n") = [] from by decide]
    rfl
  · simp only [getSelfObjectName, hdw, hstrip]
    rw [if_pos (by decide)]
    simp only [hr1, htw, hdwo]
    rw [show dropWS (toL "\n") = [] from by decide]

theorem atTest_noParens_records_none {nm : Str} (h1 : nm ≠ []) (h2 : ∀ c ∈ nm, pyWord c = true)
    (s : PState) (rest : List Str)
    (hin : s.input = (toL "subroutine " ++ nm ++ toL "\n") :: rest) :
    atTestAction (toL "@test") s (toL "@test\n") =
      .ok { s with
        input := rest
        currentLineNumber := s.currentLineNumber + 1
        currentSelfObjectName := some none
        userTestMethods := s.userTestMethods ++ [{ name := nm, selfObjectName := none }]
        output := s.output ++ toL "!@test\n" ++ (toL "subroutine " ++ nm ++ toL "\n") } := by
  obtain ⟨hsub, hselfobj⟩ := subr_name_no_parens h1 h2
  have hic : isComment (toL "subroutine " ++ nm ++ toL "\n") = false := by
    show isComment ('s' :: (toL "ubroutine " ++ nm ++ toL "\n")) = false
    simp only [isComment, dropWhile_cons_false (show pySpace 's' = false from by decide),
      dropWS]
    simp
  have hopts : parseTestOptions (toL "@test") (toL "@test\n") = .ok {} := by decide
  simp only [atTestAction, hopts, Except.bind, bind, nextLineS, nextLineAux, hin, hic,
    Bool.false_eq_true, if_false, Option.getD_some, hsub, hselfobj]
  have hcl : commentLine (toL "@test\n") = toL "!@test\n" := by decide
  simp [hcl]

theorem runAborts_on_mpiassert_after_bare_test {nm : Str} (h1 : nm ≠ []) (h2 : ∀ c ∈ nm, pyWord c = true) :
    runTranslator (initState (toL "t.pf") false
      [toL "@test\n", toL "subroutine " ++ nm ++ toL "\n", toL "@mpiAssertTrue(x)\n"]) =
    .error .typeErr := by
  have hscan : runScan (initState (toL "t.pf") false
      [toL "@test\n", toL "subroutine " ++ nm ++ toL "\n", toL "@mpiAssertTrue(x)\n"]) =
      .error .typeErr := by
    show runLoop (3 + 1) _ = _
    simp only [runLoop, nextLineS, nextLineAux, initState]
    rw [show isComment (toL "@test\n") = false from by decide]
    simp only [Bool.false_eq_true, if_false]
    simp only [parseLine]
    rw [show selectAction (toL "@test\n") = some AKind.test from by decide]
    simp only [runAction]
    rw [atTest_noParens_records_none h1 h2 _ [toL "@mpiAssertTrue(x)\n"] (by simp)]
    simp only [Except.bind, bind, runLoop, nextLineS, nextLineAux]
    have hic3 : isComment (toL "@mpiAssertTrue(x)\n") = false := by decide
    simp only [hic3, Bool.false_eq_true, if_false, parseLine]
    rw [show selectAction (toL "@mpiAssertTrue(x)\n") = some AKind.mpiassert from by decide]
    simp only [runAction]
    rw [show matchAtMpiAssert (toL "@mpiAssertTrue(x)\n") =
      some (toL "True", toL "x") from by decide]
    simp only [atMpiAssertAction]
  simp only [runTranslator, runScan] at hscan ⊢
  rw [hscan]
  rfl

/-- C10: when the looked-ahead subroutine declaration of a `@test` has
no parenthesized dummy-argument list, `getSelfObjectName` returns
`None`, yet the parser still records `currentSelfObjectName` (as
`None`), so a later `@mpiAssert` passes the `hasattr` check and
concatenates `None` into the guard — an uncaught `TypeError` that
aborts the whole run instead of omitting the guard. -/
theorem c10_mpiassert_none_self_typeerror {nm : Str}
    (h1 : nm ≠ []) (h2 : ∀ c ∈ nm, pyWord c = true) :
    getSelfObjectName (toL "subroutine " ++ nm ++ toL "\n") = none ∧
    (∀ (s : PState) (rest : List Str),
      s.input = (toL "subroutine " ++ nm ++ toL "\n") :: rest →
      atTestAction (toL "@test") s (toL "@test\n") =
        .ok { s with
          input := rest
          currentLineNumber := s.currentLineNumber + 1
          currentSelfObjectName := some none
          userTestMethods := s.userTestMethods ++ [{ name := nm, selfObjectName := none }]
          output := s.output ++ toL "!@test\n" ++ (toL "subroutine " ++ nm ++ toL "\n") }) ∧
    (∀ (s : PState) (line v args : Str), matchAtMpiAssert line = some (v, args) →
      s.currentSelfObjectName = some none →
      parseLine s line = .error .typeErr) ∧
    runTranslator (initState (toL "t.pf") false
      [toL "@test\n", toL "subroutine " ++ nm ++ toL "\n", toL "@mpiAssertTrue(x)\n"]) =
    .error .typeErr := by
  refine ⟨(subr_name_no_parens h1 h2).2,
    fun s rest hin => atTest_noParens_records_none h1 h2 s rest hin,
    fun s line v args hm hself => ?_,
    runAborts_on_mpiassert_after_bare_test h1 h2⟩
  simp only [parseLine, selectAction_of_mpiassert hm, runAction, hm,
    atMpiAssertAction, hself]

/-- Witness for C10 with the test procedure named `t1`. -/
theorem c10_mpiassert_none_self_typeerror_witness :
    getSelfObjectName (toL "subroutine " ++ toL "t1" ++ toL "\n") = none ∧
    runTranslator (initState (toL "t.pf") false
      [toL "@test\n", toL "subroutine " ++ toL "t1" ++ toL "\n",
       toL "@mpiAssertTrue(x)\n"]) = .error .typeErr :=
  ⟨(@c10_mpiassert_none_self_typeerror (toL "t1") (by decide) (by decide)).1,
   (@c10_mpiassert_none_self_typeerror (toL "t1") (by decide) (by decide)).2.2.2⟩

/-- C5 (code evaluated at the failing input): for
`@assertEqualUserDefined(a, b, 'oops')` the directive parses with the
explicit (positional) message `'oops'`, the line contains no literal
`message=`, and the emitted expansion passes `'oops'` through *and
still* synthesizes ` & message='<a> not equal to <b>'` — contradicting
the directive's own docstring ("and an error message, if none is
provided when invoked") and producing a duplicate message argument.
The synthesis is correct when no message is given, and only the
keyword spelling `message=` suppresses it. -/
theorem c5_positional_message_still_synthesized :
    parseArgsFirstSecondRest (toL "@assertequaluserdefined")
      (toL "@assertEqualUserDefined(a, b, 'oops')\n") =
      .ok (some [toL "a", toL "b", toL "'oops'"]) ∧
    containsCI (toL "message=") (toL "@assertEqualUserDefined(a, b, 'oops')\n") = false ∧
    (match parseLine (initState (toL "t.pf") false [])
        (toL "@assertEqualUserDefined(a, b, 'oops')\n") with
     | .ok s' =>
        containsSub (toL "  call assertTrue(a==b, 'oops', &\n") s'.output &&
        containsSub (toL " & message='<a> not equal to <b>', &\n") s'.output
     | .error _ => false) = true ∧
    (match parseLine (initState (toL "t.pf") false [])
        (toL "@assertEqualUserDefined(a, b)\n") with
     | .ok s' =>
        containsSub (toL " & message='<a> not equal to <b>', &\n") s'.output
     | .error _ => false) = true ∧
    (match parseLine (initState (toL "t.pf") false [])
        (toL "@assertEqualUserDefined(a, b, message='m')\n") with
     | .ok s' =>
        containsSub (toL "  call assertTrue(a==b, message='m', &\n") s'.output &&
        !containsSub (toL " & message='<a> not equal to <b>', &\n") s'.output
     | .error _ => false) = true := by
  refine ⟨by decide, by decide, by decide, by decide, by decide⟩

theorem leadsWith_extend :
    ∀ {n s : Str}, leadsWith n s = true → ∀ y, leadsWith n (s ++ y) = true
  | [], _, _, _ => rfl
  | _ :: _, [], h, _ => by simp [leadsWith] at h
  | c :: n, d :: s, h, y => by
    simp only [leadsWith, Bool.and_eq_true] at h ⊢
    exact ⟨h.1, leadsWith_extend h.2 y⟩

theorem containsSub_append_right {n : Str} :
    ∀ {x : Str}, containsSub n x = true → ∀ y, containsSub n (x ++ y) = true
  | [], h, y => by
    simp only [containsSub] at h
    have hn : n = [] := by
      cases n with
      | nil => rfl
      | cons c ns => simp [leadsWith] at h
    subst hn
    cases y with
    | nil => simp [containsSub, leadsWith]
    | cons d t => simp [containsSub, leadsWith]
  | c :: x, h, y => by
    simp only [containsSub, Bool.or_eq_true] at h
    rcases h with h | h
    · exact (by simpa [containsSub] using Or.inl (leadsWith_extend h y) :
        containsSub n ((c :: x) ++ y) = true)
    · simp [containsSub, containsSub_append_right h y]

set_option maxRecDepth 40000 in
/-- C7 (counterexample): a run with `@testCase` introducing type `Foo`
(no `constructor=` option) and `@testParameter` introducing type `Bar`
builds `makeCustomTest` with constructor `Bar` — the parameter type,
not the test-case type: the output contains `aTest%Foo = Bar(...)` and
not `= Foo(`.  And with `@testCase` alone (type `Foo`, no parameter
type), no constructor assignment is emitted at all, where the claim
would require `Foo` to be used. -/
theorem c7_constructor_default_counterexample :
    (match runTranslator (initState (toL "t.pf") false
        [toL "@testCase\n", toL "type :: Foo\n",
         toL "@testParameter\n", toL "type :: Bar\n"]) with
     | .ok s' =>
        containsSub (toL "aTest%Foo = Bar(testParameter)\n") s'.output &&
        !containsSub (toL "= Foo(") s'.output
     | .error _ => false) = true ∧
    (match runTranslator (initState (toL "t.pf") false
        [toL "@testCase\n", toL "type :: Foo\n"]) with
     | .ok s' =>
        !containsSub (toL "aTest%Foo =") s'.output &&
        !containsSub (toL "= Foo(") s'.output
     | .error _ => false) = true := by
  refine ⟨by decide, by decide⟩

theorem leadsWith_append_same :
    ∀ (u : Str) {x y : Str}, leadsWith x y = true → leadsWith (u ++ x) (u ++ y) = true
  | [], _, _, h => h
  | c :: u, x, y, h => by
    simp only [List.cons_append, leadsWith, Bool.and_eq_true]
    exact ⟨by simp, leadsWith_append_same u h⟩

theorem ctorFragmentContained (ty p REST : Str) :
    containsSub (toL "aTest%" ++ (ty ++ (toL " = " ++ (p ++ toL "(testParameter)\n"))))
      (toL "      aTest%" ++
        (ty ++ (toL " = " ++ (p ++ (toL "(testParameter)" ++ (toL "\n\n" ++ REST)))))) =
      true := by
  show containsSub (toL "aTest%" ++ (ty ++ (toL " = " ++ (p ++ toL "(testParameter)\n"))))
    (toL "      " ++ (toL "aTest%" ++
      (ty ++ (toL " = " ++ (p ++ (toL "(testParameter)" ++ (toL "\n\n" ++ REST))))))) = true
  apply containsSub_append_left
  apply containsSub_of_leads
  apply leadsWith_append_same (toL "aTest%")
  apply leadsWith_append_same ty
  apply leadsWith_append_same (toL " = ")
  apply leadsWith_append_same p
  show leadsWith (toL "(testParameter)\n")
    (toL "(testParameter)\n" ++ (toL "\n" ++ REST)) = true
  exact leadsWith_append_self _ _

/-- C7 (amended): when `@testCase` supplies no `constructor=` option,
`Parser.run` defaults the `constructor` field from `testParameterType`
(not from the test-case `type`), and the generated `makeCustomTest`
assigns `aTest%<type> = <testParameterType>(testParameter)`; shown here
for any type name `ty` and parameter type name `p` on a post-scan
state.  (When neither a constructor nor a parameter type exists, no
constructor assignment is emitted at all — see the counterexample.) -/
theorem c7_constructor_defaults_to_testParameterType (p ty : Str) :
    ∃ s', runTranslator { initState (toL "t.pf") false [] with
        userTestCase := { type := some ty, testParameterType := some p } } = .ok s' ∧
      s'.userTestCase.constructor = some p ∧
      containsSub (toL "aTest%" ++ ty ++ toL " = " ++ p ++ toL "(testParameter)\n")
        s'.output = true := by
  refine ⟨_, rfl, ?_, ?_⟩
  · simp [runTranslator, runScan, runLoop, nextLineS, nextLineAux, initState,
      makeWrapperModule, wrapCustomPart, printHeaderText, printWrapUserTestCaseText,
      printRunMethodText, printMakeCustomTestText, printMakeSuiteText,
      printParameterHeaderText, printTailText, dg, Except.bind, bind, listJoin]
  · simp only [runTranslator, runScan, runLoop, nextLineS, nextLineAux, initState,
      makeWrapperModule, wrapCustomPart, printHeaderText, printWrapUserTestCaseText,
      printRunMethodText, printMakeCustomTestText, printMakeSuiteText,
      printParameterHeaderText, printTailText, dg, Except.bind, bind, listJoin]
    simp [List.append_assoc]
    iterate 33 apply containsSub_append_left
    exact ctorFragmentContained ty p _

/-- Number of (possibly overlapping) occurrences of a nonempty needle. -/
def countSub (n : Str) : Str → Nat
  | [] => 0
  | c :: t => (if leadsWith n (c :: t) then 1 else 0) + countSub n t

set_option maxRecDepth 40000 in
/-- C6: for a method descriptor carrying `npRequests = [n1, ..., nk]`,
`addMpiTestMethod` emits exactly one registration call per requested
process count (`k` calls), each citing that count together with the
same test name and procedure; and the full pipeline on a file with
`@test(npes=[1,2,4])` yields exactly 3 `suite%addTest` registrations,
citing 1, 2 and 4 with the same name `t3`. -/
theorem c6_npes_expansion (tc : TestCase) (m : TestMethod) (npes : List Nat)
    (h : m.npRequests = some npes) :
    addMpiTestMethodText tc m = .ok (listJoin (npes.map (mpiRegLine tc m))) ∧
    (npes.map (mpiRegLine tc m)).length = npes.length ∧
    (∀ n ∈ npes, containsSub
        (toL "'" ++ m.name ++ toL "', " ++ m.name ++ toL ", " ++ natToStr n)
        (mpiRegLine tc m n) = true) ∧
    (match runTranslator (initState (toL "t.pf") false
        [toL "@test(npes=[1,2,4])\n", toL "subroutine t3(this)\n"]) with
     | .ok s' =>
        countSub (toL "call suite%addTest(") s'.output = 3 &&
        containsSub (toL "   call suite%addTest(newMpiTestMethod('t3', t3, 1))\n") s'.output &&
        containsSub (toL "   call suite%addTest(newMpiTestMethod('t3', t3, 2))\n") s'.output &&
        containsSub (toL "   call suite%addTest(newMpiTestMethod('t3', t3, 4))\n") s'.output &&
        decide (s'.userTestMethods.map (fun mm => mm.npRequests) = [some [1, 2, 4]])
     | .error _ => false) = true := by
  refine ⟨by simp only [addMpiTestMethodText, h], by simp, ?_, by decide⟩
  intro n _
  simp only [mpiRegLine, List.append_assoc]
  apply containsSub_append_left
  apply containsSub_append_left
  apply containsSub_append_left
  apply containsSub_of_leads
  apply leadsWith_append_same (toL "'")
  apply leadsWith_append_same m.name
  apply leadsWith_append_same (toL "', ")
  apply leadsWith_append_same m.name
  apply leadsWith_append_same (toL ", ")
  exact leadsWith_append_self _ _

/-- Witness for C6 with `npes = [1, 2, 4]` and method `t3`. -/
theorem c6_npes_expansion_witness :
    addMpiTestMethodText {} { name := toL "t3", npRequests := some [1, 2, 4] } =
      .ok (listJoin ([1, 2, 4].map
        (mpiRegLine {} { name := toL "t3", npRequests := some [1, 2, 4] }))) ∧
    ([1, 2, 4].map
      (mpiRegLine {} { name := toL "t3", npRequests := some [1, 2, 4] })).length = 3 ∧
    containsSub (toL "'" ++ toL "t3" ++ toL "', " ++ toL "t3" ++ toL ", " ++ natToStr 2)
      (mpiRegLine {} { name := toL "t3", npRequests := some [1, 2, 4] } 2) = true :=
  ⟨(c6_npes_expansion {} { name := toL "t3", npRequests := some [1, 2, 4] }
      [1, 2, 4] (by decide)).1,
   (c6_npes_expansion {} { name := toL "t3", npRequests := some [1, 2, 4] }
      [1, 2, 4] (by decide)).2.1,
   (c6_npes_expansion {} { name := toL "t3", npRequests := some [1, 2, 4] }
      [1, 2, 4] (by decide)).2.2.1 2 (by decide)⟩

/-- C8: each lookahead directive (`@test`, `@mpitest`, `@testCase`,
`@before`, `@after`, `@testParameter`) whose following non-comment line
(`end`) fits no expected declaration grammar makes the whole run return
an uncaught error (`MyError` for subroutine lookaheads,
`AttributeError` for type lookaheads) — regardless of what input
follows, so there is no skip-and-continue: one malformed directive is
fatal to the whole translation. -/
theorem c8_malformed_lookahead_fatal (rest : List Str) :
    runTranslator (initState (toL "t.pf") false
      (toL "@test\n" :: toL "end\n" :: rest)) = .error .myErr ∧
    runTranslator (initState (toL "t.pf") false
      (toL "@mpitest\n" :: toL "end\n" :: rest)) = .error .myErr ∧
    runTranslator (initState (toL "t.pf") false
      (toL "@testCase\n" :: toL "end\n" :: rest)) = .error .attrErr ∧
    runTranslator (initState (toL "t.pf") false
      (toL "@before\n" :: toL "end\n" :: rest)) = .error .myErr ∧
    runTranslator (initState (toL "t.pf") false
      (toL "@after\n" :: toL "end\n" :: rest)) = .error .myErr ∧
    runTranslator (initState (toL "t.pf") false
      (toL "@testParameter\n" :: toL "end\n" :: rest)) = .error .attrErr := by
  have hend : isComment (toL "end\n") = false := by decide
  have hsub : getSubroutineName (toL "end\n") = .error .myErr := by decide
  have hty : getTypeName (toL "end\n") = .error .attrErr := by decide
  refine ⟨?_, ?_, ?_, ?_, ?_, ?_⟩
  · have hscan : runScan (initState (toL "t.pf") false
        (toL "@test\n" :: toL "end\n" :: rest)) = .error .myErr := by
      simp only [runScan, initState, List.length_cons]
      simp only [runLoop, nextLineS, nextLineAux]
      rw [show isComment (toL "@test\n") = false from by decide]
      simp only [Bool.false_eq_true, if_false, parseLine]
      rw [show selectAction (toL "@test\n") = some AKind.test from by decide]
      simp only [runAction, atTestAction]
      rw [show parseTestOptions (toL "@test") (toL "@test\n") = .ok {} from by decide]
      simp only [Except.bind, bind, nextLineS, nextLineAux, hend,
        Bool.false_eq_true, if_false, Option.getD_some, hsub]
    simp only [runTranslator, runScan] at hscan ⊢
    rw [hscan]
    rfl
  · have hscan : runScan (initState (toL "t.pf") false
        (toL "@mpitest\n" :: toL "end\n" :: rest)) = .error .myErr := by
      simp only [runScan, initState, List.length_cons]
      simp only [runLoop, nextLineS, nextLineAux]
      rw [show isComment (toL "@mpitest\n") = false from by decide]
      simp only [Bool.false_eq_true, if_false, parseLine]
      rw [show selectAction (toL "@mpitest\n") = some AKind.mpitest from by decide]
      simp only [runAction, atTestAction]
      rw [show parseTestOptions (toL "@mpitest") (toL "@mpitest\n") = .ok {} from by decide]
      simp only [Except.bind, bind, nextLineS, nextLineAux, hend,
        Bool.false_eq_true, if_false, Option.getD_some, hsub]
    simp only [runTranslator, runScan] at hscan ⊢
    rw [hscan]
    rfl
  · have hscan : runScan (initState (toL "t.pf") false
        (toL "@testCase\n" :: toL "end\n" :: rest)) = .error .attrErr := by
      simp only [runScan, initState, List.length_cons]
      simp only [runLoop, nextLineS, nextLineAux]
      rw [show isComment (toL "@testCase\n") = false from by decide]
      simp only [Bool.false_eq_true, if_false, parseLine]
      rw [show selectAction (toL "@testCase\n") = some AKind.testcase from by decide]
      simp only [runAction, atTestCaseAction]
      rw [show parseTestCaseOptions (toL "@testCase\n") ({} : TestCase) = .ok {}
        from by decide]
      simp only [Except.bind, bind, nextLineS, nextLineAux, hend,
        Bool.false_eq_true, if_false, Option.getD_some, hty]
    simp only [runTranslator, runScan] at hscan ⊢
    rw [hscan]
    rfl
  · have hscan : runScan (initState (toL "t.pf") false
        (toL "@before\n" :: toL "end\n" :: rest)) = .error .myErr := by
      simp only [runScan, initState, List.length_cons]
      simp only [runLoop, nextLineS, nextLineAux]
      rw [show isComment (toL "@before\n") = false from by decide]
      simp only [Bool.false_eq_true, if_false, parseLine]
      rw [show selectAction (toL "@before\n") = some AKind.before from by decide]
      simp only [runAction, atBeforeAction]
      simp only [Except.bind, bind, nextLineS, nextLineAux, hend,
        Bool.false_eq_true, if_false, Option.getD_some, hsub]
    simp only [runTranslator, runScan] at hscan ⊢
    rw [hscan]
    rfl
  · have hscan : runScan (initState (toL "t.pf") false
        (toL "@after\n" :: toL "end\n" :: rest)) = .error .myErr := by
      simp only [runScan, initState, List.length_cons]
      simp only [runLoop, nextLineS, nextLineAux]
      rw [show isComment (toL "@after\n") = false from by decide]
      simp only [Bool.false_eq_true, if_false, parseLine]
      rw [show selectAction (toL "@after\n") = some AKind.after from by decide]
      simp only [runAction, atAfterAction]
      simp only [Except.bind, bind, nextLineS, nextLineAux, hend,
        Bool.false_eq_true, if_false, Option.getD_some, hsub]
    simp only [runTranslator, runScan] at hscan ⊢
    rw [hscan]
    rfl
  · have hscan : runScan (initState (toL "t.pf") false
        (toL "@testParameter\n" :: toL "end\n" :: rest)) = .error .attrErr := by
      simp only [runScan, initState, List.length_cons]
      simp only [runLoop, nextLineS, nextLineAux]
      rw [show isComment (toL "@testParameter\n") = false from by decide]
      simp only [Bool.false_eq_true, if_false, parseLine]
      rw [show selectAction (toL "@testParameter\n") = some AKind.testParam from by decide]
      simp only [runAction, atTestParameterAction, tparamCapture]
      simp only [Except.bind, bind, nextLineS, nextLineAux, hend,
        Bool.false_eq_true, if_false, Option.getD_some, hty, Option.isNone_none, if_true]
    simp only [runTranslator, runScan] at hscan ⊢
    rw [hscan]
    rfl

theorem nextLineAux_input_sub :
    ∀ (ls : List Str) (n : Nat) (out : Str) (x : Str),
      x ∈ (nextLineAux ls n out).1.1 → x ∈ ls
  | [], _, _, _, hx => by simp [nextLineAux] at hx
  | l :: t, n, out, x, hx => by
    by_cases hc : isComment l
    · simp only [nextLineAux, hc, if_true] at hx
      exact List.mem_cons_of_mem l (nextLineAux_input_sub t _ _ x hx)
    · simp only [nextLineAux, hc, Bool.false_eq_true, if_false] at hx
      exact List.mem_cons_of_mem l hx

theorem nextLineAux_line_mem :
    ∀ (ls : List Str) (n : Nat) (out : Str) (l : Str),
      (nextLineAux ls n out).2 = some l → l ∈ ls
  | [], _, _, _, h => by simp [nextLineAux] at h
  | c :: t, n, out, l, h => by
    by_cases hc : isComment c
    · simp only [nextLineAux, hc, if_true] at h
      exact List.mem_cons_of_mem c (nextLineAux_line_mem t _ _ l h)
    · simp only [nextLineAux, hc, Bool.false_eq_true, if_false] at h
      simp at h
      simp [h]

theorem tparamCapture_fields (p1 : PState) (nl : Str) (s3 : PState)
    (h : tparamCapture p1 nl = Except.ok s3) :
    s3.suiteName = p1.suiteName ∧ s3.defaultSuiteName = p1.defaultSuiteName ∧
      s3.input = p1.input := by
  unfold tparamCapture at h
  split at h
  · simp only [Except.bind, bind] at h
    split at h
    · exact Except.noConfusion h
    · replace h := Except.ok.inj h
      simp only [pure, Except.pure, Except.ok.injEq] at h
      subst h
      exact ⟨rfl, rfl, rfl⟩
  · simp only [pure, Except.pure] at h
    replace h := Except.ok.inj h
    subst h
    exact ⟨rfl, rfl, rfl⟩

theorem runAction_preserves_suiteName (k : AKind) (s : PState) (line : Str) (s' : PState)
    (hk1 : k ≠ AKind.suite) (hk2 : k ≠ AKind.begin)
    (h : runAction k s line = .ok s') :
    s'.suiteName = s.suiteName ∧ s'.defaultSuiteName = s.defaultSuiteName ∧
      ∀ x ∈ s'.input, x ∈ s.input := by
  cases k
  case suite => exact absurd rfl hk1
  case begin => exact absurd rfl hk2
  case testParam =>
    simp only [runAction, atTestParameterAction, Except.bind, bind] at h
    split at h
    · exact Except.noConfusion h
    · rename_i v heq
      obtain ⟨hv1, hv1d, hv2⟩ := tparamCapture_fields _ _ _ heq
      repeat' split at h
      all_goals first
        | exact Except.noConfusion h
        | (replace h := Except.ok.inj h
           subst h
           exact ⟨hv1, hv1d, fun x hx => nextLineAux_input_sub s.input s.currentLineNumber
             (s.output ++ commentLine line) x
             (show x ∈ (nextLineS
                { s with output := s.output ++ commentLine line }).1.input from
              hv2 ▸ hx)⟩)
  all_goals simp only [runAction, atTestAction, atTestCaseAction, atBeforeAction,
    atAfterAction, atAssertAssociatedAction,
    atAssertNotAssociatedAction, atEqualUserAction, atMpiAssertAction, atAssertAction,
    assertEpilogue, Except.bind, bind] at h
  all_goals repeat' split at h
  all_goals first
    | exact Except.noConfusion h
    | (replace h := Except.ok.inj h
       subst h
       first
         | exact ⟨rfl, rfl, fun x hx => hx⟩
         | exact ⟨rfl, rfl, fun x hx => nextLineAux_input_sub _ _ _ x hx⟩)

theorem runLoop_suiteName :
    ∀ (fuel : Nat) (s s' : PState),
      (∀ l ∈ s.input, selectAction l ≠ some AKind.suite ∧ selectAction l ≠ some AKind.begin) →
      runLoop fuel s = .ok s' →
      s'.suiteName = s.suiteName ∧ s'.defaultSuiteName = s.defaultSuiteName
  | 0, s, s', _, h => by
    simp only [runLoop] at h
    replace h := Except.ok.inj h
    subst h
    exact ⟨rfl, rfl⟩
  | fuel + 1, s, s', hl, h => by
    simp only [runLoop] at h
    rcases hp : (nextLineS s).2 with _ | l
    · simp only [hp] at h
      replace h := Except.ok.inj h
      subst h
      exact ⟨rfl, rfl⟩
    · simp only [hp, Except.bind, bind] at h
      rcases hq : parseLine (nextLineS s).1 l with e | s2
      · simp only [hq] at h
        exact Except.noConfusion h
      · simp only [hq] at h
        have hlmem : l ∈ s.input :=
          nextLineAux_line_mem s.input s.currentLineNumber s.output l hp
        have hstep : s2.suiteName = s.suiteName ∧ s2.defaultSuiteName = s.defaultSuiteName ∧
            ∀ x ∈ s2.input, x ∈ s.input := by
          unfold parseLine at hq
          rcases hsel : selectAction l with _ | k
          · rw [hsel] at hq
            replace hq := Except.ok.inj hq
            subst hq
            exact ⟨rfl, rfl, fun x hx => nextLineAux_input_sub _ _ _ x hx⟩
          · rw [hsel] at hq
            have hk1 : k ≠ AKind.suite := by
              intro e; subst e; exact (hl l hlmem).1 hsel
            have hk2 : k ≠ AKind.begin := by
              intro e; subst e; exact (hl l hlmem).2 hsel
            obtain ⟨h1, h2, h3⟩ :=
              runAction_preserves_suiteName k (nextLineS s).1 l s2 hk1 hk2 hq
            exact ⟨h1, h2, fun x hx => nextLineAux_input_sub _ _ _ x (h3 x hx)⟩
        obtain ⟨ih1, ih2⟩ := runLoop_suiteName fuel s2 s'
          (fun l' hl' => hl l' (hstep.2.2 l' hl')) h
        exact ⟨ih1.trans hstep.1, ih2.trans hstep.2.1⟩

theorem wrapCustomPart_fields (s : PState) (sp : PState × Str)
    (h : wrapCustomPart s = .ok sp) : sp.1.suiteName = s.suiteName := by
  simp only [wrapCustomPart, Except.bind, bind, pure, Except.pure] at h
  repeat' split at h
  all_goals first
    | exact Except.noConfusion h
    | (replace h := Except.ok.inj h
       subst h
       rfl)

theorem printMakeSuite_leads (s : PState) (t : Str)
    (h : printMakeSuiteText s = .ok t) :
    leadsWith (toL "function " ++ (s.suiteName ++ toL "() result(suite)\n")) t = true := by
  simp only [printMakeSuiteText, Except.bind, bind, pure, Except.pure] at h
  split at h
  · exact Except.noConfusion h
  · replace h := Except.ok.inj h
    subst h
    simp only [List.append_assoc]
    apply leadsWith_append_same (toL "function ")
    apply leadsWith_append_same s.suiteName
    exact leadsWith_append_self _ _

theorem makeWrapper_fields (s s' : PState) (nm : Str) (hnm : s.suiteName = nm)
    (h : makeWrapperModule s = .ok s') :
    s'.suiteName = nm ∧
    containsSub (toL "function " ++ (nm ++ toL "() result(suite)\n")) s'.output = true := by
  unfold makeWrapperModule at h
  simp only [Except.bind, bind, pure, Except.pure] at h
  repeat' split at h
  all_goals first
    | exact Except.noConfusion h
    | (rename_i _ sp hsp _ suiteTxt hsuite
       replace h := Except.ok.inj h
       subst h
       refine ⟨(wrapCustomPart_fields s sp hsp).trans hnm, ?_⟩
       have h2 := printMakeSuite_leads sp.1 suiteTxt hsuite
       rw [(wrapCustomPart_fields s sp hsp).trans hnm] at h2
       exact containsSub_append_left _ (containsSub_of_leads h2))

/-- C2: the suite name precedence.  An explicit `@suite(name=...)`
always overwrites the suite name; a bare `module` declaration sets it
to `<module>_suite` only when no name is set yet (so an earlier
`@suite` wins); and for a run whose input contains no line matched by
the `@suite` or module recognizers, the post-scan default applies: the
final suite name is `<base-name>_suite` for input file `<base-name>.pf`
and the emitted factory is `function <base-name>_suite() result(suite)`. -/
theorem c2_suite_name_precedence
    (fn : Str) (mk : Bool) (lines : List Str) (s' : PState)
    (hns : ∀ l ∈ lines, selectAction l ≠ some AKind.suite ∧ selectAction l ≠ some AKind.begin)
    (hok : runTranslator (initState fn mk lines) = .ok s') :
    (∀ s nm, (atSuiteAction s nm).suiteName = nm) ∧
    (∀ s nm line, (atBeginAction s nm line).suiteName =
        if s.suiteName = [] then nm ++ toL "_suite" else s.suiteName) ∧
    s'.suiteName = getBaseName fn ++ toL "_suite" ∧
    containsSub (toL "function " ++ ((getBaseName fn ++ toL "_suite") ++
        toL "() result(suite)\n")) s'.output = true := by
  refine ⟨fun s nm => rfl, ?_, ?_⟩
  · intro s nm line
    by_cases hc : s.suiteName = [] <;> simp [atBeginAction, hc]
  · unfold runTranslator at hok
    simp only [Except.bind, bind] at hok
    split at hok
    · exact Except.noConfusion hok
    · rename_i _ s1 hscan
      obtain ⟨hsn, hdef⟩ :=
        runLoop_suiteName (lines.length + 1) (initState fn mk lines) s1 hns hscan
      have hs1 : s1.suiteName = ([] : Str) := hsn
      rw [if_pos hs1] at hok
      split at hok
      all_goals exact makeWrapper_fields _ s' (getBaseName fn ++ toL "_suite") hdef hok

set_option maxRecDepth 40000 in
theorem c2_suite_name_precedence_witness :
    (∀ l ∈ ([toL "@test\n", toL "subroutine t1()\n"] : List Str),
        selectAction l ≠ some AKind.suite ∧ selectAction l ≠ some AKind.begin) ∧
    ∃ s', runTranslator (initState (toL "a.pf") false
        [toL "@test\n", toL "subroutine t1()\n"]) = Except.ok s' ∧
      s'.suiteName = getBaseName (toL "a.pf") ++ toL "_suite" ∧
      containsSub (toL "function " ++ ((getBaseName (toL "a.pf") ++ toL "_suite") ++
          toL "() result(suite)\n")) s'.output = true := by
  have hko : (match runTranslator (initState (toL "a.pf") false
      [toL "@test\n", toL "subroutine t1()\n"]) with
    | Except.ok _ => true
    | Except.error _ => false) = true := by decide
  refine ⟨by decide, ?_⟩
  rcases hok : runTranslator (initState (toL "a.pf") false
      [toL "@test\n", toL "subroutine t1()\n"]) with e | s'
  · rw [hok] at hko
    simp at hko
  · obtain ⟨_, _, h3, h4⟩ := c2_suite_name_precedence (toL "a.pf") false
      [toL "@test\n", toL "subroutine t1()\n"] s' (by decide) hok
    exact ⟨s', rfl, h3, h4⟩

theorem selectAction_of_suite {line nm : Str}
    (h : matchAtSuite line = some nm) : selectAction line = some AKind.suite := by
  have h' := h
  unfold matchAtSuite at h'
  rcases e : stripCI (toL "@suite") (dropWS line) with _ | r
  · rw [e] at h'
    simp at h'
  · obtain ⟨x, hx, he⟩ := stripCI_decomp _ _ _ e
    have stuck : ∀ q : Str, ciStuck q (toL "@suite") = true →
        stripCI q (dropWS line) = none := fun q hq => by
      rw [hx]
      exact stripCI_append_none q x (ciStuck_of_ciEq _ _ _ he hq) r
    have hTest : matchAtTest (toL "@test") line = false := by
      simp only [matchAtTest, stuck (toL "@test") (by decide)]
    have hMpiTest : matchAtTest (toL "@mpitest") line = false := by
      simp only [matchAtTest, stuck (toL "@mpitest") (by decide)]
    have hTc : matchAtTestCase line = false := by
      simp only [matchAtTestCase, matchAtTest, stuck (toL "@testcase") (by decide)]
    simp only [selectAction, hTest, hMpiTest, hTc, h, Option.isSome_some,
      Bool.false_eq_true, if_false, if_true]

set_option maxRecDepth 40000 in
/-- C3 (counterexample): a consumed `@suite` line leaves no trace in
the output — in particular no commented copy — although the directive
was recognized and acted on: scanning a file holding only
`@suite(name='s1')` sets the suite name to `s1` yet produces EMPTY
output. -/
theorem c3_suite_not_commented_counterexample :
    (match runScan (initState (toL "t.pf") false [toL "@suite(name='s1')\n"]) with
     | .ok s' => decide (s'.suiteName = toL "s1") && decide (s'.output = [])
     | .error _ => false) = true := by decide

set_option maxRecDepth 100000 in
/-- C3 (amended): a line matched by no recognizer is copied through
byte-for-byte unchanged; the lookahead-consuming directives `@test`,
`@mpitest`, `@testCase`, `@before`, `@after` and `@testParameter` are
echoed into the output as comments (each `@` becomes `!@`); but a
consumed `@suite` line — contrary to the claim — is NOT commented into
the output: its action only records the names and emits nothing. -/
theorem c3_commenting_except_suite :
    (∀ (s : PState) (line : Str), selectAction line = none →
        parseLine s line = .ok { s with output := s.output ++ line }) ∧
    (∀ (s : PState) (nm line : Str), matchAtSuite line = some nm →
        parseLine s line = .ok (atSuiteAction s nm) ∧
        (atSuiteAction s nm).output = s.output) ∧
    (match runScan (initState (toL "t.pf") false
        [toL "@test\n", toL "subroutine t1(this)\n",
         toL "@mpitest(npes=[1])\n", toL "subroutine t2(this)\n",
         toL "@testCase\n", toL "type :: C1\n",
         toL "@before\n", toL "subroutine su(this)\n",
         toL "@after\n", toL "subroutine td(this)\n",
         toL "@testParameter\n", toL "type :: P1\n",
         toL "plain text line\n"]) with
     | .ok s' => decide (s'.output =
         toL "!@test\nsubroutine t1(this)\n" ++
         toL "!@mpitest(npes=[1])\nsubroutine t2(this)\n" ++
         toL "!@testCase\ntype :: C1\n" ++
         toL "!@before\nsubroutine su(this)\n" ++
         toL "!@after\nsubroutine td(this)\n" ++
         toL "!@testParameter\ntype :: P1\n" ++
         toL "plain text line\n")
     | .error _ => false) = true := by
  refine ⟨?_, ?_, by decide⟩
  · intro s line hsel
    simp only [parseLine, hsel]
  · intro s nm line hm
    refine ⟨?_, rfl⟩
    simp only [parseLine, selectAction_of_suite hm, runAction, hm]

theorem leadsWith_decomp : ∀ {n s : Str}, leadsWith n s = true → ∃ t, s = n ++ t
  | [], s, _ => ⟨s, rfl⟩
  | _ :: _, [], h => by simp [leadsWith] at h
  | c :: n, d :: s, h => by
    simp only [leadsWith, Bool.and_eq_true, decide_eq_true_eq] at h
    obtain ⟨t, ht⟩ := leadsWith_decomp h.2
    exact ⟨t, by simp [h.1, ht]⟩

theorem notAssoc_shape {line sp : Str} (h : matchAtAssertNotAssociated line = some sp) :
    ∃ x n a rest, dropWS line = x ++ (n ++ (a ++ rest)) ∧
      ciEq (toL "@assert") x = true ∧ ciEq (toL "associated") a = true ∧
      (ciEq (toL "not") n = true ∨ ciEq (toL "un") n = true) := by
  have h' := h
  unfold matchAtAssertNotAssociated at h'
  rcases e1 : stripCI (toL "@assert") (dropWS line) with _ | r
  · simp only [e1] at h'
    exact Option.noConfusion h'
  · simp only [e1] at h'
    rcases e2 : matchNotUn r with _ | p
    · simp only [e2] at h'
      exact Option.noConfusion h'
    · obtain ⟨x, hx1, hx2⟩ := stripCI_decomp _ _ _ e1
      have hnu := e2
      unfold matchNotUn at hnu
      rcases e3 : stripCI (toL "not") r with _ | t
      · simp only [e3] at hnu
        rcases e4 : stripCI (toL "un") r with _ | t2
        · simp only [e4] at hnu
          exact Option.noConfusion hnu
        · simp only [e4] at hnu
          rcases e5 : stripCI (toL "associated") t2 with _ | u2
          · simp only [e5] at hnu
            exact Option.noConfusion hnu
          · obtain ⟨n, hn1, hn2⟩ := stripCI_decomp _ _ _ e4
            obtain ⟨a, ha1, ha2⟩ := stripCI_decomp _ _ _ e5
            exact ⟨x, n, a, u2, by rw [hx1, hn1, ha1], hx2, ha2, Or.inr hn2⟩
      · simp only [e3] at hnu
        rcases e5 : stripCI (toL "associated") t with _ | u2
        · simp only [e5] at hnu
          exact Option.noConfusion hnu
        · obtain ⟨n, hn1, hn2⟩ := stripCI_decomp _ _ _ e3
          obtain ⟨a, ha1, ha2⟩ := stripCI_decomp _ _ _ e5
          exact ⟨x, n, a, u2, by rw [hx1, hn1, ha1], hx2, ha2, Or.inl hn2⟩

theorem selectAction_of_notAssoc {line sp : Str}
    (h : matchAtAssertNotAssociated line = some sp) :
    matchAtAssert line = none ∧ matchAtAssertAssociated line = false ∧
    selectAction line = some AKind.assertNotAssoc := by
  obtain ⟨x, n, a, rest, hline, hx, ha, hn⟩ := notAssoc_shape h
  have hline2 : dropWS line = (x ++ n) ++ (a ++ rest) := by
    rw [hline, List.append_assoc]
  have hTest : matchAtTest (toL "@test") line = false := by
    simp only [matchAtTest, hline,
      stripCI_append_none (toL "@test") x (ciStuck_of_ciEq _ _ _ hx (by decide)) _]
  have hMpiTest : matchAtTest (toL "@mpitest") line = false := by
    simp only [matchAtTest, hline,
      stripCI_append_none (toL "@mpitest") x (ciStuck_of_ciEq _ _ _ hx (by decide)) _]
  have hTc : matchAtTestCase line = false := by
    simp only [matchAtTestCase, matchAtTest, hline,
      stripCI_append_none (toL "@testcase") x (ciStuck_of_ciEq _ _ _ hx (by decide)) _]
  have hSuite : matchAtSuite line = none := by
    simp only [matchAtSuite, hline,
      stripCI_append_none (toL "@suite") x (ciStuck_of_ciEq _ _ _ hx (by decide)) _]
  have hBegin : matchAtBegin line = none := by
    simp only [matchAtBegin, hline,
      stripCI_append_none (toL "module") x (ciStuck_of_ciEq _ _ _ hx (by decide)) _]
  have hAssert : matchAtAssert line = none := by
    simp only [matchAtAssert, matchAssertVariant, hline,
      stripCI_of_ciEq (toL "@assert") x hx (n ++ (a ++ rest))]
    rw [← List.append_assoc]
    rcases hn with hn | hn
    · have hall : ∀ v ∈ assertVariants, ciStuck v (toL "not" ++ toL "associated") = true := by
        decide
      exact tryVariants_stuck assertVariants
        (fun v hv => ciStuck_of_ciEq _ _ _ (ciEq_append hn ha) (hall v hv)) rest
    · have hall : ∀ v ∈ assertVariants, ciStuck v (toL "un" ++ toL "associated") = true := by
        decide
      exact tryVariants_stuck assertVariants
        (fun v hv => ciStuck_of_ciEq _ _ _ (ciEq_append hn ha) (hall v hv)) rest
  have hAssoc : matchAtAssertAssociated line = false := by
    rcases hn with hn | hn
    · simp only [matchAtAssertAssociated, hline2,
        stripCI_append_none (toL "@assertassociated") (x ++ n)
          (ciStuck_of_ciEq _ _ _ (ciEq_append hx hn) (by decide)) _]
    · simp only [matchAtAssertAssociated, hline2,
        stripCI_append_none (toL "@assertassociated") (x ++ n)
          (ciStuck_of_ciEq _ _ _ (ciEq_append hx hn) (by decide)) _]
  refine ⟨hAssert, hAssoc, ?_⟩
  simp only [selectAction, hTest, hMpiTest, hTc, hSuite, hBegin, hAssert, hAssoc, h,
    Option.isSome_none, Option.isSome_some, Bool.false_eq_true, if_false, if_true]

/-- C1: for every input line matched by the `@assert(not|un)associated`
recognizer (all three interior patterns: one, two or three arguments),
the plain `@assert<Variant>` recognizer and the positive
`@assertAssociated` recognizer both fail to match — although they sit
earlier (higher priority) in the registry and the keyword contains
`associated` — so dispatch selects the negated recognizer; every call
text its action can emit (all four expansion branches) begins
`  call assertFalse(associated(`, never the positive `assertTrue`
form; and on any successful parse the appended output is exactly the
marker-wrapped expansion built around that negated call. -/
theorem c1_assertNotAssociated_uses_negated_form {line sp : Str} (s : PState)
    (h : matchAtAssertNotAssociated line = some sp) :
    matchAtAssert line = none ∧
    matchAtAssertAssociated line = false ∧
    selectAction line = some AKind.assertNotAssoc ∧
    (∀ (args : List Str) (call : Str), assocCallText true args = .ok call →
        leadsWith (toL "  call assertFalse(associated(") call = true) ∧
    (∀ s' : PState, parseLine s line = .ok s' →
        ∃ tail : Str, s'.output = s.output ++
          setLineText s.useMarkers s.currentLineNumber s.fileName ++
          (toL "  call assertFalse(associated(" ++ tail) ++
          srcLocText s.fileName s.currentLineNumber ++ toL " )\n" ++
          toL "  if (anyExceptions()) return\n" ++
          setLineText s.useMarkers (s.currentLineNumber + 1) s.fileName) := by
  obtain ⟨hAssert, hAssoc, hSel⟩ := selectAction_of_notAssoc h
  have hB : ∀ (args : List Str) (call : Str), assocCallText true args = .ok call →
      leadsWith (toL "  call assertFalse(associated(") call = true := by
    intro args call hc
    simp only [assocCallText, reduceIte] at hc
    repeat' split at hc
    all_goals first
      | exact Except.noConfusion hc
      | (replace hc := Except.ok.inj hc
         subst hc
         exact leadsWith_extend (leadsWith_append_self _ _) _)
  refine ⟨hAssert, hAssoc, hSel, hB, ?_⟩
  intro s' hps
  simp only [parseLine, hSel, runAction, h] at hps
  simp only [atAssertNotAssociatedAction, Except.bind, bind] at hps
  repeat' split at hps
  all_goals first
    | exact Except.noConfusion hps
    | (rename_i call hcall
       replace hps := Except.ok.inj hps
       subst hps
       obtain ⟨tail, htail⟩ := leadsWith_decomp (hB _ call hcall)
       refine ⟨tail, ?_⟩
       simp only [assertEpilogue, htail]
       simp [List.append_assoc])

set_option maxRecDepth 40000 in
/-- Witness for C1 at the spec exemplar line `@assertNotAssociated(a, b)`. -/
theorem c1_assertNotAssociated_uses_negated_form_witness :
    matchAtAssertNotAssociated (toL "@assertNotAssociated(a, b)\n") = some (toL "Not") ∧
    (matchAtAssert (toL "@assertNotAssociated(a, b)\n") = none ∧
     matchAtAssertAssociated (toL "@assertNotAssociated(a, b)\n") = false ∧
     selectAction (toL "@assertNotAssociated(a, b)\n") = some AKind.assertNotAssoc ∧
     (∀ (args : List Str) (call : Str), assocCallText true args = .ok call →
         leadsWith (toL "  call assertFalse(associated(") call = true) ∧
     (∀ s' : PState, parseLine (initState (toL "t.pf") false [])
           (toL "@assertNotAssociated(a, b)\n") = .ok s' →
         ∃ tail : Str, s'.output = (initState (toL "t.pf") false []).output ++
           setLineText (initState (toL "t.pf") false []).useMarkers
             (initState (toL "t.pf") false []).currentLineNumber
             (initState (toL "t.pf") false []).fileName ++
           (toL "  call assertFalse(associated(" ++ tail) ++
           srcLocText (initState (toL "t.pf") false []).fileName
             (initState (toL "t.pf") false []).currentLineNumber ++ toL " )\n" ++
           toL "  if (anyExceptions()) return\n" ++
           setLineText (initState (toL "t.pf") false []).useMarkers
             ((initState (toL "t.pf") false []).currentLineNumber + 1)
             (initState (toL "t.pf") false []).fileName)) ∧
    (match parseLine (initState (toL "t.pf") false [])
        (toL "@assertNotAssociated(a, b)\n") with
     | .ok s' => containsSub (toL "  call assertFalse(associated(a,b), &\n") s'.output
     | .error _ => false) = true :=
  ⟨by decide,
   @c1_assertNotAssociated_uses_negated_form (toL "@assertNotAssociated(a, b)\n")
     (toL "Not") (initState (toL "t.pf") false []) (by decide),
   by decide⟩
